import Mathlib

/-!
Verification development for the youtube-ai-video-gen service core.

The relational state (D1 tables from migrations/0000_init.sql), the KV cache,
the R2 media bucket and the three generation route handlers
(src/app/api/generate/{script,image,tts}/route.ts) are shallowly embedded as
pure Lean functions.  Row ids, produced by crypto.randomUUID() in the source,
are modelled as naturals drawn from a per-state fresh counter `nextId`;
`datetime('now')` columns, which no handler ever reads, are omitted; JSON blob
columns that are written but never read back by the handlers (job payload,
generated_with) are likewise omitted.  External collaborators (the Gemini /
DeepAI / Google-TTS providers, the sha256 digest) are parameters of the
handlers, standing for the outcome of the corresponding awaited call.
-/

namespace YtGen

/-- A row of the `users` table (id, access_sub UNIQUE, email, name). -/
structure UserRow where
  id : Nat
  access_sub : String
  email : Option String
  name : Option String
deriving Repr, DecidableEq

/-- A row of the `projects` table. -/
structure ProjectRow where
  id : Nat
  user_id : Nat
  title : Option String
  topic : Option String
  target_length : Option Nat
  status : String
deriving Repr, DecidableEq

/-- One script section as produced by the Gemini provider (lib/ai/gemini.ts). -/
structure ScriptSection where
  heading : String
  narration : String
deriving Repr, DecidableEq

/-- SEO metadata of a Gemini response. -/
structure SeoMetadata where
  title : String
  description : String
  tags : List String
deriving Repr, DecidableEq

/-- The parsed Gemini provider response (`GeminiResponse` in lib/ai/gemini.ts). -/
structure GeminiResponse where
  outline : List String
  sections : List ScriptSection
  seo : SeoMetadata
  thumbnailIdeas : List String
deriving Repr, DecidableEq

/-- A row of the `project_versions` table.  The script/outline/seo TEXT
columns hold JSON serializations; the serialization is a storage-boundary
detail never read back by the handlers, so the row carries the structured
values themselves. -/
structure VersionRow where
  id : Nat
  project_id : Nat
  version : Nat
  script : List ScriptSection
  outline : List String
  seo : SeoMetadata
deriving Repr, DecidableEq

/-- A row of the `assets` table. -/
structure AssetRow where
  id : Nat
  project_id : Nat
  type : String
  label : Option String
  r2_key : String
  mime_type : Option String
  size_bytes : Option Nat
deriving Repr, DecidableEq

/-- A row of the `generation_jobs` table (payload blob omitted: written,
never read). -/
structure JobRow where
  id : Nat
  project_id : Nat
  job_type : String
  status : String
  error : Option String
deriving Repr, DecidableEq

/-- A KV cache entry: the cached Gemini result together with its absolute
expiry instant (put-time + expirationTtl, per Cloudflare KV TTL semantics). -/
structure CacheEntry where
  value : GeminiResponse
  expiresAt : Nat
deriving Repr, DecidableEq

/-- The persistent state visible to the handlers: the five D1 tables, the KV
cache, the R2 bucket (key and object byte length) and the fresh-id counter
standing in for crypto.randomUUID(). -/
structure St where
  users : List UserRow
  projects : List ProjectRow
  versions : List VersionRow
  assets : List AssetRow
  jobs : List JobRow
  cache : List (String × CacheEntry)
  bucket : List (String × Nat)
  nextId : Nat
deriving Repr, DecidableEq

/-- JavaScript string truthiness for a nullable string: null/undefined and
the empty string are falsy. -/
def truthy : Option String → Bool
  | some s => s != ""
  | none => false

/-- Draw a fresh id (models crypto.randomUUID()). -/
def freshId (st : St) : Nat × St := (st.nextId, { st with nextId := st.nextId + 1 })

/-- `ensureUser` of lib/db/client.ts: select by access_sub; when found and a
truthy email or name is supplied, UPDATE with `coalesce(?, col)` semantics
(the bound parameter is `params.email ?? null`, so a supplied value, even the
empty string, replaces the column and an absent one keeps it); otherwise
INSERT a fresh row. -/
def ensureUser (st : St) (accessSub : String) (email name : Option String) :
    UserRow × St :=
  match st.users.find? (fun u => u.access_sub == accessSub) with
  | some existing =>
      if truthy email || truthy name then
        let updated : UserRow :=
          { existing with
            email := match email with | some e => some e | none => existing.email
            name := match name with | some n => some n | none => existing.name }
        (updated,
         { st with
           users := st.users.map (fun u => if u.id == existing.id then updated else u) })
      else
        (existing, st)
  | none =>
      let row : UserRow :=
        { id := st.nextId, access_sub := accessSub, email := email, name := name }
      (row, { st with users := st.users ++ [row], nextId := st.nextId + 1 })

/-- `getProjectById` of lib/db/client.ts. -/
def getProjectById (st : St) (pid : Nat) : Option ProjectRow :=
  st.projects.find? (fun p => p.id == pid)

/-- `createProject` of lib/db/client.ts: INSERT with status 'draft'. -/
def createProject (st : St) (userId : Nat) (title topic : Option String)
    (targetLength : Option Nat) : ProjectRow × St :=
  let row : ProjectRow :=
    { id := st.nextId, user_id := userId, title := title, topic := topic,
      target_length := targetLength, status := "draft" }
  (row, { st with projects := st.projects ++ [row], nextId := st.nextId + 1 })

/-- SQL `coalesce(?, col)` for a nullable column. -/
def coalesce {α : Type} : Option α → Option α → Option α
  | some v, _ => some v
  | none, old => old

/-- `updateProjectMetadata` of lib/db/client.ts: coalescing UPDATE of title,
topic and status. -/
def updateProjectMetadata (st : St) (pid : Nat)
    (title topic status : Option String) : St :=
  { st with
    projects := st.projects.map (fun p =>
      if p.id == pid then
        { p with title := coalesce title p.title, topic := coalesce topic p.topic,
                 status := status.getD p.status }
      else p) }

/-- The value of `SELECT version FROM project_versions WHERE project_id = ?
ORDER BY version DESC LIMIT 1` with the handler's `?? 0` applied: the maximum
version among the project's rows, or 0 when it has none. -/
def lastVersionNum (versions : List VersionRow) (pid : Nat) : Nat :=
  versions.foldr (fun v acc => if v.project_id == pid then max v.version acc else acc) 0

/-- `insertProjectVersion` of lib/db/client.ts: read the project's greatest
version, insert with that plus one. -/
def insertProjectVersion (st : St) (pid : Nat) (outline : List String)
    (script : List ScriptSection) (seo : SeoMetadata) : VersionRow × St :=
  let nextVersion := lastVersionNum st.versions pid + 1
  let row : VersionRow :=
    { id := st.nextId, project_id := pid, version := nextVersion,
      script := script, outline := outline, seo := seo }
  (row, { st with versions := st.versions ++ [row], nextId := st.nextId + 1 })

/-- `insertGenerationJob` of lib/db/client.ts: INSERT with the given status,
defaulting to 'queued', and a null error. -/
def insertGenerationJob (st : St) (pid : Nat) (jobType : String)
    (status : Option String) : JobRow × St :=
  let row : JobRow :=
    { id := st.nextId, project_id := pid, job_type := jobType,
      status := status.getD "queued", error := none }
  (row, { st with jobs := st.jobs ++ [row], nextId := st.nextId + 1 })

/-- `updateGenerationJobStatus` of lib/db/client.ts: overwrite status and
error (the error bind is `params.error ?? null`: an absent error clears the
column, it is not coalesced). -/
def updateGenerationJobStatus (st : St) (jobId : Nat) (status : String)
    (error : Option String) : St :=
  { st with
    jobs := st.jobs.map (fun j =>
      if j.id == jobId then { j with status := status, error := error } else j) }

/-- `insertAsset` of lib/db/client.ts. -/
def insertAsset (st : St) (pid : Nat) (type : String) (label : Option String)
    (r2Key : String) (mimeType : Option String) (sizeBytes : Option Nat) :
    AssetRow × St :=
  let row : AssetRow :=
    { id := st.nextId, project_id := pid, type := type, label := label,
      r2_key := r2Key, mime_type := mimeType, size_bytes := sizeBytes }
  (row, { st with assets := st.assets ++ [row], nextId := st.nextId + 1 })

/-- `env.CACHE.get(key, \x7btype: "json"\x7d)` at instant `now`: the stored
value when the key is present and not yet expired. -/
def cacheGet (cache : List (String × CacheEntry)) (key : String) (now : Nat) :
    Option GeminiResponse :=
  match cache.find? (fun kv => kv.1 == key) with
  | some kv => if now < kv.2.expiresAt then some kv.2.value else none
  | none => none

/-- `env.CACHE.put(key, value, \x7bexpirationTtl: ttl\x7d)` at instant `now`:
replace any entry for the key, expiring at now + ttl. -/
def cachePut (cache : List (String × CacheEntry)) (key : String)
    (value : GeminiResponse) (now ttl : Nat) : List (String × CacheEntry) :=
  (key, ⟨value, now + ttl⟩) :: cache.filter (fun kv => kv.1 != key)

/-- `env.MEDIA_BUCKET.put(key, buffer, ...)`: record the key and byte length. -/
def bucketPut (bucket : List (String × Nat)) (key : String) (len : Nat) :
    List (String × Nat) :=
  bucket ++ [(key, len)]

/-- One item of the TTS route's `assets` response array. -/
structure TtsRespItem where
  assetId : Nat
  key : String
  heading : Option String
deriving Repr, DecidableEq

/-- The JSON body of a handler response. -/
inductive RespBody where
  | error (msg : String)
  | script (projectId : Nat) (cached : Bool) (result : GeminiResponse)
  | image (projectId : Nat) (assetId : Nat) (key : String)
  | tts (projectId : Nat) (assets : List TtsRespItem)
deriving Repr, DecidableEq

/-- An HTTP response: status code and JSON body. -/
structure Resp where
  status : Nat
  body : RespBody
deriving Repr, DecidableEq

/-- The routes' `unauthorized()` helper. -/
def unauthorizedResp : Resp := ⟨401, .error "Unauthorized"⟩

/-- The routes' `badRequest(message)` helper. -/
def badRequest (msg : String) : Resp := ⟨400, .error msg⟩

/-- The routes' `forbidden(message)` helper. -/
def forbidden (msg : String) : Resp := ⟨403, .error msg⟩

/-- The script route's request body.  `projectId` is modelled as an optional
row id; `regenerate` is the body flag's truthiness. -/
structure ScriptBody where
  topic : String
  persona : Option String
  lengthMinutes : Option Nat
  language : Option String
  projectId : Option Nat
  regenerate : Bool
deriving Repr, DecidableEq

/-- JSON.stringify of a nullable string field of the cache-key object. -/
def jsonOptStr : Option String → String
  | some s => "\"" ++ s ++ "\""
  | none => "null"

/-- JSON.stringify of a nullable number field of the cache-key object. -/
def jsonOptNum : Option Nat → String
  | some n => toString n
  | none => "null"

/-- The script route's `cacheBase`: JSON.stringify of the normalized
\x7btopic, persona, length, language\x7d object (absent fields become null). -/
def cacheBase (b : ScriptBody) : String :=
  "\x7b\"topic\":" ++ jsonOptStr (some b.topic) ++
  ",\"persona\":" ++ jsonOptStr b.persona ++
  ",\"length\":" ++ jsonOptNum b.lengthMinutes ++
  ",\"language\":" ++ jsonOptStr b.language ++ "\x7d"

/-- The cache TTL of the script route: 6 hours in seconds. -/
def scriptTTL : Nat := 60 * 60 * 6

/-- Per-request externals of the script route: the sha256 digest used for the
cache key, the outcome `generateYoutubeScript` would produce, and the current
instant. -/
structure ScriptDeps where
  hash : String → String
  provider : Except String GeminiResponse
  now : Nat

/-- The part of the script route after project resolution: cache-key
computation, dedup check, job creation, provider call, persistence and job
transition (src/app/api/generate/script/route.ts, from `cacheBase` to the
end of the try/catch). -/
def scriptGenerate (deps : ScriptDeps) (payload : ScriptBody) (projectId : Nat)
    (st : St) : Resp × St :=
  let cacheKey := "script:" ++ deps.hash (cacheBase payload)
  let hit := if payload.regenerate then none else cacheGet st.cache cacheKey deps.now
  match hit with
  | some cached => (⟨200, .script projectId true cached⟩, st)
  | none =>
    let (job, st) := insertGenerationJob st projectId "script" (some "running")
    match deps.provider with
    | .ok result =>
      let (_, st) := insertProjectVersion st projectId result.outline result.sections
        result.seo
      let st := updateProjectMetadata st projectId (some result.seo.title)
        (some payload.topic) (some "ready")
      let st := { st with cache := cachePut st.cache cacheKey result deps.now scriptTTL }
      let st := updateGenerationJobStatus st job.id "succeeded" none
      (⟨200, .script projectId false result⟩, st)
    | .error msg =>
      let st := updateGenerationJobStatus st job.id "failed" (some msg)
      (⟨500, .error "Failed to generate script"⟩, st)

/-- POST /api/generate/script.  `userSub`/`userEmail`/`userName` are the
x-user-* headers set by the middleware; `body` is none when the JSON body
fails to parse. -/
def scriptPOST (deps : ScriptDeps) (userSub userEmail userName : Option String)
    (body : Option ScriptBody) (st : St) : Resp × St :=
  if !truthy userSub then (unauthorizedResp, st)
  else match body with
  | none => (badRequest "Invalid JSON body", st)
  | some payload =>
    if payload.topic == "" then (badRequest "'topic' is required", st)
    else
      let (user, st) := ensureUser st (userSub.getD "") userEmail userName
      match payload.projectId with
      | some pid =>
        match getProjectById st pid with
        | none => (badRequest "Project not found", st)
        | some project =>
          if project.user_id != user.id then
            (forbidden "Project does not belong to user", st)
          else scriptGenerate deps payload project.id st
      | none =>
        let (project, st) :=
          createProject st user.id (some payload.topic) (some payload.topic) none
        scriptGenerate deps payload project.id st

/-- The image route's request body. -/
structure ImageBody where
  projectId : Option Nat
  prompt : String
  style : Option String
  aspectRatio : Option String
  label : Option String
deriving Repr, DecidableEq

/-- What the image route observes of a successful `generateImage` call: the
response's content-type header and the fetched body's byte length. -/
structure ImageProviderResult where
  contentType : Option String
  byteLength : Nat
deriving Repr, DecidableEq

/-- Per-request externals of the image route. -/
structure ImageDeps where
  provider : Except String ImageProviderResult

/-- `contentType.split("/")[1] ?? "png"`. -/
def extOf (contentType : String) : String :=
  match contentType.splitOn "/" with
  | _ :: ext :: _ => ext
  | _ => "png"

/-- POST /api/generate/image (src/app/api/generate/image/route.ts). -/
def imagePOST (deps : ImageDeps) (userSub userEmail userName : Option String)
    (body : Option ImageBody) (st : St) : Resp × St :=
  if !truthy userSub then (unauthorizedResp, st)
  else match body with
  | none => (badRequest "Invalid JSON body", st)
  | some payload =>
    match payload.projectId with
    | none => (badRequest "'projectId' is required", st)
    | some pid =>
      if payload.prompt == "" then (badRequest "'prompt' is required", st)
      else
        let (user, st) := ensureUser st (userSub.getD "") userEmail userName
        match getProjectById st pid with
        | none => (badRequest "Project not found", st)
        | some project =>
          if project.user_id != user.id then
            (forbidden "Project does not belong to user", st)
          else
            let (job, st) := insertGenerationJob st project.id "image" (some "running")
            match deps.provider with
            | .ok img =>
              let contentType := img.contentType.getD "image/png"
              let extension := extOf contentType
              let (kid, st) := freshId st
              let key := "images/" ++ toString project.id ++ "/" ++ toString kid
                ++ "." ++ extension
              let st := { st with bucket := bucketPut st.bucket key img.byteLength }
              let (asset, st) := insertAsset st project.id "image"
                (some (payload.label.getD (payload.prompt.take 64)))
                key (some contentType) (some img.byteLength)
              let st := updateGenerationJobStatus st job.id "succeeded" none
              (⟨200, .image project.id asset.id key⟩, st)
            | .error msg =>
              let st := updateGenerationJobStatus st job.id "failed" (some msg)
              (⟨500, .error "Failed to generate image"⟩, st)

/-- One element of the TTS route's `sections` body array. -/
structure SectionInput where
  id : Option String
  heading : Option String
  text : String
deriving Repr, DecidableEq

/-- The TTS route's request body.  The voice/audioConfig passthroughs are
folded into the route's `synth` dependency. -/
structure TtsBody where
  projectId : Option Nat
  sections : List SectionInput
deriving Repr, DecidableEq

/-- What the TTS route observes of a successful `synthesizeSpeech` call: the
decoded audio byte length and the mime type. -/
structure TtsResult where
  audioLength : Nat
  mimeType : String
deriving Repr, DecidableEq

/-- Per-request externals of the TTS route: the outcome of `synthesizeSpeech`
for a given section text (voice and audioConfig are fixed per request). -/
structure TtsDeps where
  synth : String → Except String TtsResult

/-- `section.heading ?? section.id ?? "Audio Segment"` (nullish chain). -/
def ttsLabel (sec : SectionInput) : String :=
  match sec.heading with
  | some h => h
  | none => sec.id.getD "Audio Segment"

/-- The TTS route's per-section loop.  A section with falsy text throws
"Section text is required"; a synthesis failure propagates; writes already
performed (bucket objects, asset rows) stay in the state carried into the
error outcome — there is no rollback. -/
def ttsSections (deps : TtsDeps) (projectId : Nat)
    (sections : List SectionInput) (st : St) (acc : List TtsRespItem) :
    St × Except String (List TtsRespItem) :=
  match sections with
  | [] => (st, .ok acc)
  | sec :: rest =>
    if sec.text == "" then (st, .error "Section text is required")
    else match deps.synth sec.text with
      | .error msg => (st, .error msg)
      | .ok ttsResult =>
        let (kid, st) := freshId st
        let key := "audio/" ++ toString projectId ++ "/" ++ toString kid ++ ".mp3"
        let st := { st with bucket := bucketPut st.bucket key ttsResult.audioLength }
        let (asset, st) := insertAsset st projectId "audio" (some (ttsLabel sec))
          key (some ttsResult.mimeType) (some ttsResult.audioLength)
        ttsSections deps projectId rest st (acc ++ [⟨asset.id, key, sec.heading⟩])

/-- POST /api/generate/tts (src/app/api/generate/tts/route.ts). -/
def ttsPOST (deps : TtsDeps) (userSub userEmail userName : Option String)
    (body : Option TtsBody) (st : St) : Resp × St :=
  if !truthy userSub then (unauthorizedResp, st)
  else match body with
  | none => (badRequest "Invalid JSON body", st)
  | some payload =>
    match payload.projectId with
    | none => (badRequest "'projectId' is required", st)
    | some pid =>
      if payload.sections.isEmpty then
        (badRequest "'sections' must be a non-empty array", st)
      else
        let (user, st) := ensureUser st (userSub.getD "") userEmail userName
        match getProjectById st pid with
        | none => (badRequest "Project not found", st)
        | some project =>
          if project.user_id != user.id then
            (forbidden "Project does not belong to user", st)
          else
            let (job, st) := insertGenerationJob st project.id "tts" (some "running")
            match ttsSections deps project.id payload.sections st [] with
            | (st, .ok results) =>
              let st := updateGenerationJobStatus st job.id "succeeded" none
              (⟨200, .tts project.id results⟩, st)
            | (st, .error msg) =>
              let st := updateGenerationJobStatus st job.id "failed" (some msg)
              (⟨500, .error "Failed to generate audio"⟩, st)

/-- Well-formedness of a state: every row id and every project reference is
below the fresh counter, so freshly drawn ids never collide with existing
rows. -/
def St.fresh (st : St) : Prop :=
  (∀ u ∈ st.users, u.id < st.nextId) ∧
  (∀ p ∈ st.projects, p.id < st.nextId) ∧
  (∀ v ∈ st.versions, v.id < st.nextId ∧ v.project_id < st.nextId) ∧
  (∀ a ∈ st.assets, a.id < st.nextId ∧ a.project_id < st.nextId) ∧
  (∀ j ∈ st.jobs, j.id < st.nextId ∧ j.project_id < st.nextId)

instance (st : St) : Decidable st.fresh := by
  unfold St.fresh; infer_instance

/-! ### Example fixtures used by witnesses and counterexamples -/

/-- A sample SEO record. -/
def seoEx : SeoMetadata := ⟨"Title", "Desc", []⟩

/-- A sample Gemini result. -/
def geminiEx : GeminiResponse := ⟨["intro"], [⟨"Intro", "Hello"⟩], seoEx, ["idea"]⟩

/-- A state holding one user "A" (id 0) owning project 1 that already has a
version 3; the fresh counter is past every id. -/
def stEx : St :=
  { users := [⟨0, "A", none, none⟩],
    projects := [⟨1, 0, some "T", some "T", none, "draft"⟩],
    versions := [⟨2, 1, 3, [], [], seoEx⟩],
    assets := [], jobs := [], cache := [], bucket := [], nextId := 3 }

/-- Script deps whose provider succeeds with `geminiEx`. -/
def scriptDepsEx : ScriptDeps := ⟨fun s => s, .ok geminiEx, 1000⟩

/-- Script deps whose provider fails. -/
def scriptDepsFail : ScriptDeps := ⟨fun s => s, .error "provider down", 1000⟩

/-- A well-formed script body naming project 1. -/
def scriptBodyEx : ScriptBody := ⟨"Photosynthesis basics", none, none, none, some 1, false⟩

/-- A well-formed script body with no project id. -/
def scriptBodyNoProj : ScriptBody := ⟨"Photosynthesis basics", none, none, none, none, false⟩

/-- A state like `stEx` whose cache already holds the identity-hashed entry
for `scriptBodyNoProj`, expiring at 5000. -/
def stExCache : St :=
  { stEx with cache := [("script:" ++ cacheBase scriptBodyNoProj, ⟨geminiEx, 5000⟩)] }

/-- The empty persisted state. -/
def stEmpty : St := ⟨[], [], [], [], [], [], [], 0⟩

/-- The project row stored in `stEx`. -/
def projEx : ProjectRow := ⟨1, 0, some "T", some "T", none, "draft"⟩

/-- TTS deps that synthesize "good" (10 bytes of mpeg) and fail otherwise. -/
def ttsDepsEx : TtsDeps :=
  ⟨fun t => if t = "good" then .ok ⟨10, "audio/mpeg"⟩ else .error "bad"⟩

/-- Three TTS sections, the second with empty text. -/
def ttsSectionsEx : List SectionInput :=
  [⟨none, some "Intro", "good"⟩, ⟨none, none, ""⟩, ⟨none, none, "x"⟩]

/-! ### Access token verification (lib/auth/access.ts)

`jwtVerify` of the jose library is an external collaborator: it is a
parameter of `verifyAccessToken`, specified at its interface (a success
implies the expected audience is among the token's audience claims). -/

/-- Identity-provider environment configuration as read by
`resolveAccessConfig`; an unset variable is `none`. -/
structure EnvCfg where
  aud : Option String
  alg : Option String
  certsUrl : Option String
  teamDomain : Option String
  loginUrl : Option String
deriving Repr, DecidableEq

/-- The resolved `AccessConfig`. -/
structure AccessConfig where
  audience : String
  certsUrl : String
  loginUrl : String
  algorithm : Option String
deriving Repr, DecidableEq

/-- `requireEnv`: throwing (here `Except.error`) when the variable is unset
or empty (falsy). -/
def requireEnvOpt (v : Option String) (name : String) : Except String String :=
  match v with
  | some s =>
    if s = "" then .error ("Missing required environment variable: " ++ name)
    else .ok s
  | none => .error ("Missing required environment variable: " ++ name)

/-- `sanitized.replace(/\/$/, "")`: drop one trailing slash. -/
def dropTrailingSlash (s : String) : String :=
  if s.endsWith "/" then s.dropRight 1 else s

/-- Derivation of the certs URL from CF_ACCESS_TEAM_DOMAIN. -/
def deriveCertsUrl (teamDomain : String) : String :=
  let sanitized := if teamDomain.startsWith "http" then teamDomain
    else "https://" ++ teamDomain
  dropTrailingSlash sanitized ++ "/cdn-cgi/access/certs"

/-- `certsUrl.replace(/\/cdn-cgi\/access\/certs$/, "/cdn-cgi/access/login")`:
suffix substitution. -/
def loginFromCerts (certsUrl : String) : String :=
  if certsUrl.endsWith "/cdn-cgi/access/certs" then
    certsUrl.dropRight ("/cdn-cgi/access/certs".length) ++ "/cdn-cgi/access/login"
  else certsUrl

/-- `resolveAccessConfig` of lib/auth/access.ts.  The process-wide
memoization is not modelled (the function is pure); a throw is `.error`. -/
def resolveAccessConfig (env : EnvCfg) : Except String AccessConfig :=
  match requireEnvOpt env.aud "CF_ACCESS_AUD" with
  | .error e => .error e
  | .ok audience =>
    match env.certsUrl with
    | some cu => .ok ⟨audience, cu, env.loginUrl.getD (loginFromCerts cu), env.alg⟩
    | none =>
      match env.teamDomain with
      | some td =>
        if td = "" then
          .error "Provide either CF_ACCESS_CERTS_URL or CF_ACCESS_TEAM_DOMAIN to verify Cloudflare Access tokens."
        else
          .ok ⟨audience, deriveCertsUrl td,
            env.loginUrl.getD (loginFromCerts (deriveCertsUrl td)), env.alg⟩
      | none =>
        .error "Provide either CF_ACCESS_CERTS_URL or CF_ACCESS_TEAM_DOMAIN to verify Cloudflare Access tokens."

/-- The JWT claims surfaced by jose's jwtVerify as the route reads them. -/
structure JwtPayload where
  sub : Option String
  email : Option String
  identity_email : Option String
  name : Option String
  common_name : Option String
  iss : Option String
  aud : List String
deriving Repr, DecidableEq

/-- A successful jwtVerify outcome: claims plus the protected header's alg. -/
structure JwtVerifyOk where
  payload : JwtPayload
  alg : String
deriving Repr, DecidableEq

/-- `AccessIdentity` of lib/auth/access.ts (the `sub` cast can surface an
absent claim, hence Option). -/
structure AccessIdentity where
  sub : Option String
  email : Option String
  name : Option String
  issuer : Option String
  token : String
deriving Repr, DecidableEq

/-- `AccessVerificationResult` of lib/auth/access.ts. -/
inductive AccessVerificationResult where
  | success (identity : AccessIdentity)
  | error (e : String)
  | unauthorized
deriving Repr, DecidableEq

/-- JS ASCII whitespace as stripped by String.prototype.trim. -/
def jsWs (c : Char) : Bool :=
  c = ' ' || c = '\t' || c = '\n' || c = '\r' || c = '\x0b' || c = '\x0c'

/-- `token.trim()` over the ASCII whitespace set. -/
def jsTrim (s : String) : String :=
  ⟨((s.toList.dropWhile jsWs).reverse.dropWhile jsWs).reverse⟩

/-- The `algorithms` option passed to jwtVerify:
`config.algorithm ? [config.algorithm] : undefined` (truthiness). -/
def algListOf (cfg : AccessConfig) : Option (List String) :=
  match cfg.algorithm with
  | some a => if a = "" then none else some [a]
  | none => none

/-- `verifyAccessToken` of lib/auth/access.ts.  `jv` stands for jose's
`jwtVerify` applied to (token, algorithms option, expected audience); any
exception inside the try block — configuration resolution included — is
caught and returned as the `error` result. -/
def verifyAccessToken (env : EnvCfg)
    (jv : String → Option (List String) → String → Except String JwtVerifyOk)
    (token : String) : AccessVerificationResult :=
  let trimmed := jsTrim token
  if trimmed = "" then .unauthorized
  else
    match resolveAccessConfig env with
    | .error e => .error e
    | .ok config =>
      match jv trimmed (algListOf config) config.audience with
      | .error e => .error e
      | .ok out =>
        let algMismatch : Bool :=
          match config.algorithm with
          | some a => a != "" && out.alg != a
          | none => false
        if algMismatch then .error "Unexpected Access token algorithm"
        else .success
          ⟨out.payload.sub,
           (out.payload.email).orElse (fun _ => out.payload.identity_email),
           (out.payload.name).orElse (fun _ => out.payload.common_name),
           out.payload.iss, trimmed⟩

/-- A sample identity-provider environment. -/
def envEx : EnvCfg :=
  ⟨some "aud1", none, some "https://x/cdn-cgi/access/certs", none, none⟩

/-- A sample jwtVerify: accepts exactly the token "tok", with the expected
audience among the claims. -/
def jvEx : String → Option (List String) → String → Except String JwtVerifyOk :=
  fun t _ aud =>
    if t = "tok" then .ok ⟨⟨some "s", none, none, none, none, none, [aud]⟩, "RS256"⟩
    else .error "bad signature"

/-! ### Session codec (lib/auth/session.ts)

Strings are modelled as lists of byte values (the session machinery is
ASCII throughout).  `base64UrlEncode` is btoa followed by stripping '=' and
mapping '+'/'/' to '-'/'_'; `base64UrlDecode` re-adds padding, maps back and
runs atob, whose forgiving-base64 semantics (ASCII-whitespace removal,
stripping of up to two trailing '=', failure on a remainder-1 length or a
non-alphabet character, and silent discarding of leftover bits in a final
2- or 3-character group) are modelled faithfully.  HMAC-SHA256 under the
process key derived from the ≥32-character SESSION_SECRET is a function
parameter `hmacF`; JSON.stringify / JSON.parse are modelled concretely for
payloads whose strings need no escaping. -/

/-- The base64url alphabet: 6-bit value to ASCII code. -/
def b64CharOf (v : Nat) : Nat :=
  if v < 26 then 65 + v
  else if v < 52 then 97 + (v - 26)
  else if v < 62 then 48 + (v - 52)
  else if v = 62 then 45
  else 95

/-- ASCII code to 6-bit value; accepts both the url alphabet and '+'/'/'
(the decoder first maps '-'→'+' and '_'→'/' and atob accepts both). -/
def b64ValOf (c : Nat) : Option Nat :=
  if 65 ≤ c ∧ c ≤ 90 then some (c - 65)
  else if 97 ≤ c ∧ c ≤ 122 then some (26 + (c - 97))
  else if 48 ≤ c ∧ c ≤ 57 then some (52 + (c - 48))
  else if c = 45 ∨ c = 43 then some 62
  else if c = 95 ∨ c = 47 then some 63
  else none

/-- ASCII whitespace removed by forgiving-base64. -/
def isB64Ws (c : Nat) : Bool :=
  c = 9 || c = 10 || c = 12 || c = 13 || c = 32

/-- `base64UrlEncode`: three bytes to four alphabet characters, with a
padless 2- or 3-character tail. -/
def b64uEncode : List Nat → List Nat
  | [] => []
  | [b1] => [b64CharOf (b1 / 4), b64CharOf (b1 % 4 * 16)]
  | [b1, b2] =>
    [b64CharOf (b1 / 4), b64CharOf (b1 % 4 * 16 + b2 / 16), b64CharOf (b2 % 16 * 4)]
  | b1 :: b2 :: b3 :: rest =>
    b64CharOf (b1 / 4) :: b64CharOf (b1 % 4 * 16 + b2 / 16) ::
    b64CharOf (b2 % 16 * 4 + b3 / 64) :: b64CharOf (b3 % 64) :: b64uEncode rest

/-- Strip one or two leading '=' (61) from a reversed list, the
forgiving-base64 step seen from the right end. -/
def stripPadRev : List Nat → List Nat
  | [] => []
  | [c] => if c = 61 then [] else [c]
  | c1 :: c2 :: rest =>
    if c1 = 61 then (if c2 = 61 then rest else c2 :: rest) else c1 :: c2 :: rest

/-- Strip up to two trailing '=' characters. -/
def stripPad (t : List Nat) : List Nat := (stripPadRev t.reverse).reverse

/-- Decode whitespace-free, unpadded base64: groups of four characters give
three bytes; a final group of two or three characters gives one or two
bytes, discarding the leftover bits; a lone trailing character or any
non-alphabet character fails. -/
def decodeGroups : List Nat → Option (List Nat)
  | [] => some []
  | [_] => none
  | [c1, c2] =>
    match b64ValOf c1, b64ValOf c2 with
    | some v1, some v2 => some [v1 * 4 + v2 / 16]
    | _, _ => none
  | [c1, c2, c3] =>
    match b64ValOf c1, b64ValOf c2, b64ValOf c3 with
    | some v1, some v2, some v3 =>
      some [v1 * 4 + v2 / 16, v2 % 16 * 16 + v3 / 4]
    | _, _, _ => none
  | c1 :: c2 :: c3 :: c4 :: rest =>
    match b64ValOf c1, b64ValOf c2, b64ValOf c3, b64ValOf c4, decodeGroups rest with
    | some v1, some v2, some v3, some v4, some ds =>
      some ((v1 * 4 + v2 / 16) :: (v2 % 16 * 16 + v3 / 4) :: (v3 % 4 * 64 + v4) :: ds)
    | _, _, _, _, _ => none

/-- `base64UrlDecode`: re-add '=' padding from the raw length, then atob's
forgiving decode (whitespace removal, stripping of up to two trailing '='
when the length is a multiple of four, failure on remainder 1, group
decode). Exceptions are `none`. -/
def b64uDecode (s : List Nat) : Option (List Nat) :=
  let t := (s ++ List.replicate ((4 - s.length % 4) % 4) 61).filter
    (fun c => !isB64Ws c)
  let t2 := if t.length % 4 = 0 then stripPad t else t
  if t2.length % 4 = 1 then none else decodeGroups t2

/-- JavaScript `String.prototype.split` on a one-character separator. -/
def jsSplit (sep : Nat) : List Nat → List (List Nat)
  | [] => [[]]
  | c :: rest =>
    if c = sep then [] :: jsSplit sep rest
    else
      match jsSplit sep rest with
      | [] => [[c]]
      | h :: t => (c :: h) :: t

/-- Decimal digits of a natural, most significant first (ASCII codes). -/
def natDigitsAux (n : Nat) (acc : List Nat) : List Nat :=
  if n < 10 then (48 + n) :: acc
  else natDigitsAux (n / 10) ((48 + n % 10) :: acc)
termination_by n
decreasing_by exact Nat.div_lt_self (by omega) (by omega)

/-- ASCII decimal rendering of a natural (JSON number serialization). -/
def natDigits (n : Nat) : List Nat := natDigitsAux n []

/-- Value of a run of ASCII digits. -/
def digitsToNat (ds : List Nat) : Nat :=
  ds.foldl (fun acc d => acc * 10 + (d - 48)) 0

/-- Longest digit run at the head of the input, and the rest. -/
def takeDigits : List Nat → List Nat × List Nat
  | [] => ([], [])
  | c :: rest =>
    if 48 ≤ c ∧ c ≤ 57 then
      ((c :: (takeDigits rest).1), (takeDigits rest).2)
    else ([], c :: rest)

/-- `SessionIdentity` of lib/auth/session.ts (strings as byte lists). -/
structure SessionIdentity where
  sub : List Nat
  email : Option (List Nat)
  name : Option (List Nat)
deriving Repr, DecidableEq

/-- `SessionPayload`: the identity plus issuedAt (Date.now()). -/
structure SessionPayload where
  sub : List Nat
  email : Option (List Nat)
  name : Option (List Nat)
  issuedAt : Nat
deriving Repr, DecidableEq

/-- Bytes of `{"sub":"`. -/
def subKey : List Nat := [123, 34, 115, 117, 98, 34, 58, 34]

/-- Bytes of `,"email":"`. -/
def emailKey : List Nat := [44, 34, 101, 109, 97, 105, 108, 34, 58, 34]

/-- Bytes of `,"name":"`. -/
def nameKey : List Nat := [44, 34, 110, 97, 109, 101, 34, 58, 34]

/-- Bytes of `,"issuedAt":`. -/
def issuedAtKey : List Nat := [44, 34, 105, 115, 115, 117, 101, 100, 65, 116, 34, 58]

/-- JSON.stringify of a session payload: property order sub, email?, name?,
issuedAt, with undefined fields omitted; string contents are emitted as-is
(the well-formedness predicate below excludes characters JSON would
escape). -/
def jsonStringifyPayload (p : SessionPayload) : List Nat :=
  subKey ++ p.sub ++ [34] ++
  (match p.email with | some e => emailKey ++ e ++ [34] | none => []) ++
  (match p.name with | some nm => nameKey ++ nm ++ [34] | none => []) ++
  issuedAtKey ++ natDigits p.issuedAt ++ [125]

/-- Drop an exact byte sequence from the head, or fail. -/
def dropExact : List Nat → List Nat → Option (List Nat)
  | [], s => some s
  | _ :: _, [] => none
  | e :: es, c :: cs => if c = e then dropExact es cs else none

/-- Read up to the next '"' (34): the content and the remainder after it. -/
def takeUntilQuote : List Nat → Option (List Nat × List Nat)
  | [] => none
  | c :: rest =>
    if c = 34 then some ([], rest)
    else
      match takeUntilQuote rest with
      | some (s, r) => some (c :: s, r)
      | none => none

/-- Parse an optional `,"key":"value"` field. -/
def parseOptStrField (key : List Nat) (s : List Nat) :
    Option (Option (List Nat) × List Nat) :=
  match dropExact key s with
  | some t =>
    match takeUntilQuote t with
    | some (v, r) => some (some v, r)
    | none => none
  | none => some (none, s)

/-- JSON.parse specialized to the session payload object shape; any
malformed input is `none` (JSON.parse throwing is caught by the caller). -/
def jsonParsePayload (s : List Nat) : Option SessionPayload :=
  match dropExact subKey s with
  | none => none
  | some s1 =>
    match takeUntilQuote s1 with
    | none => none
    | some (sub, s2) =>
      match parseOptStrField emailKey s2 with
      | none => none
      | some (email, s3) =>
        match parseOptStrField nameKey s3 with
        | none => none
        | some (nm, s4) =>
          match dropExact issuedAtKey s4 with
          | none => none
          | some s5 =>
            let (ds, s6) := takeDigits s5
            if ds ≠ [] ∧ s6 = [125] then some ⟨sub, email, nm, digitsToNat ds⟩
            else none

/-- `createSessionValue`: serialize \x7b...identity, issuedAt: now\x7d, HMAC
it, return base64url(payload) ++ "." ++ base64url(signature). -/
def createSessionValue (hmacF : List Nat → List Nat) (identity : SessionIdentity)
    (now : Nat) : List Nat :=
  let data := jsonStringifyPayload ⟨identity.sub, identity.email, identity.name, now⟩
  b64uEncode data ++ [46] ++ b64uEncode (hmacF data)

/-- `parseSessionValue`: split on '.' (46), take the first two parts, reject
falsy parts, decode both, verify the MAC, JSON-parse the payload; every
failure, decoding exceptions included, is null (`none`). -/
def parseSessionValue (hmacF : List Nat → List Nat) (value : List Nat) :
    Option SessionPayload :=
  if value = [] then none
  else
    match jsSplit 46 value with
    | [] => none
    | [_] => none
    | encodedData :: signature :: _ =>
      if encodedData = [] ∨ signature = [] then none
      else
        match b64uDecode encodedData, b64uDecode signature with
        | some dataBytes, some signatureBytes =>
          if hmacF dataBytes = signatureBytes then jsonParsePayload dataBytes
          else none
        | _, _ => none

/-- Flip bit `bitIdx` of the character at `charIdx` (out-of-range indices
leave the token unchanged). -/
def flipBit (value : List Nat) (charIdx bitIdx : Nat) : List Nat :=
  value.set charIdx (Nat.xor (value.getD charIdx 0) (2 ^ bitIdx))

/-- A byte JSON.stringify would emit verbatim inside a string literal:
printable ASCII other than '"' and backslash. -/
def goodByte (b : Nat) : Prop := 32 ≤ b ∧ b < 127 ∧ b ≠ 34 ∧ b ≠ 92

instance (b : Nat) : Decidable (goodByte b) := by unfold goodByte; infer_instance

/-- All bytes of a string are escape-free. -/
def wellFormedStr (bs : List Nat) : Prop := ∀ b ∈ bs, goodByte b

instance (bs : List Nat) : Decidable (wellFormedStr bs) := by
  unfold wellFormedStr; infer_instance

/-- An identity whose fields JSON round-trips verbatim. -/
def wellFormedIdentity (i : SessionIdentity) : Prop :=
  wellFormedStr i.sub ∧ (∀ e, i.email = some e → wellFormedStr e) ∧
  (∀ nm, i.name = some nm → wellFormedStr nm)

/-- The serialized JSON payload that `createSessionValue` signs. -/
def payloadData (identity : SessionIdentity) (now : Nat) : List Nat :=
  jsonStringifyPayload ⟨identity.sub, identity.email, identity.name, now⟩

/-- A MAC stand-in for concrete evaluation: 32 bytes, and no input other
than `data0` shares `data0`'s tag. -/
def hmInjEx (data0 : List Nat) : List Nat → List Nat :=
  fun d => if d = data0 then List.replicate 32 1 else List.replicate 32 0

/-- A concrete well-formed identity, sub = "ab". -/
def identEx : SessionIdentity := ⟨[97, 98], none, none⟩

/-! ### Frame lemmas for the data-layer operations -/

theorem ensureUser_projects (st : St) (s : String) (e n : Option String) :
    (ensureUser st s e n).2.projects = st.projects := by
  unfold ensureUser; split <;> (try split) <;> rfl

theorem ensureUser_versions (st : St) (s : String) (e n : Option String) :
    (ensureUser st s e n).2.versions = st.versions := by
  unfold ensureUser; split <;> (try split) <;> rfl

theorem ensureUser_assets (st : St) (s : String) (e n : Option String) :
    (ensureUser st s e n).2.assets = st.assets := by
  unfold ensureUser; split <;> (try split) <;> rfl

theorem ensureUser_jobs (st : St) (s : String) (e n : Option String) :
    (ensureUser st s e n).2.jobs = st.jobs := by
  unfold ensureUser; split <;> (try split) <;> rfl

theorem ensureUser_cache (st : St) (s : String) (e n : Option String) :
    (ensureUser st s e n).2.cache = st.cache := by
  unfold ensureUser; split <;> (try split) <;> rfl

theorem ensureUser_bucket (st : St) (s : String) (e n : Option String) :
    (ensureUser st s e n).2.bucket = st.bucket := by
  unfold ensureUser; split <;> (try split) <;> rfl

theorem ensureUser_nextId_le (st : St) (s : String) (e n : Option String) :
    st.nextId ≤ (ensureUser st s e n).2.nextId := by
  unfold ensureUser; split <;> (try split) <;> simp

theorem ensureUser_fresh (st : St) (s : String) (e n : Option String)
    (h : st.fresh) : (ensureUser st s e n).2.fresh := by
  obtain ⟨hu, hp, hv, ha, hj⟩ := h
  unfold ensureUser St.fresh
  split
  case _ u hfind =>
    have humem : u ∈ st.users := List.mem_of_find?_eq_some hfind
    split
    · refine ⟨?_, hp, hv, ha, hj⟩
      intro x hx
      simp only [List.mem_map] at hx
      obtain ⟨y, hy, hfy⟩ := hx
      by_cases hid : y.id == u.id <;> simp only [hid] at hfy <;> subst hfy
      · exact hu u humem
      · exact hu y hy
    · exact ⟨hu, hp, hv, ha, hj⟩
  case _ hfind =>
    refine ⟨?_, ?_, ?_, ?_, ?_⟩
    · intro x hx
      rcases List.mem_append.mp hx with hx | hx
      · exact Nat.lt_succ_of_lt (hu x hx)
      · simp only [List.mem_singleton] at hx; subst hx; exact Nat.lt_succ_self _
    · exact fun p hmem => Nat.lt_succ_of_lt (hp p hmem)
    · exact fun v hmem => ⟨Nat.lt_succ_of_lt (hv v hmem).1, Nat.lt_succ_of_lt (hv v hmem).2⟩
    · exact fun a hmem => ⟨Nat.lt_succ_of_lt (ha a hmem).1, Nat.lt_succ_of_lt (ha a hmem).2⟩
    · exact fun j hmem => ⟨Nat.lt_succ_of_lt (hj j hmem).1, Nat.lt_succ_of_lt (hj j hmem).2⟩

theorem ensureUser_user_id_lt (st : St) (s : String) (e n : Option String)
    (h : st.fresh) :
    (ensureUser st s e n).1.id < (ensureUser st s e n).2.nextId := by
  obtain ⟨hu, _, _, _, _⟩ := h
  unfold ensureUser
  split
  case _ u hfind =>
    have humem : u ∈ st.users := List.mem_of_find?_eq_some hfind
    split <;> exact hu u humem
  case _ hfind => exact Nat.lt_succ_self _

/-- A map that rewrites only the row with a given id leaves a list of rows
with smaller ids unchanged. -/
theorem map_update_id_eq_of_lt (l : List JobRow) (jid : Nat)
    (f : JobRow → JobRow) (h : ∀ j ∈ l, j.id < jid) :
    (l.map (fun j => if j.id == jid then f j else j)) = l := by
  induction l with
  | nil => rfl
  | cons x xs ih =>
    have hx : x.id < jid := h x (List.mem_cons_self _ _)
    have : (x.id == jid) = false := by
      simp only [beq_eq_false_iff_ne]; omega
    simp only [List.map_cons, this, if_neg]
    rw [ih (fun j hj => h j (List.mem_cons_of_mem _ hj))]
    simp

theorem map_update_pid_eq_of_lt (l : List ProjectRow) (pid : Nat)
    (f : ProjectRow → ProjectRow) (h : ∀ p ∈ l, p.id < pid) :
    (l.map (fun p => if p.id == pid then f p else p)) = l := by
  induction l with
  | nil => rfl
  | cons x xs ih =>
    have hx : x.id < pid := h x (List.mem_cons_self _ _)
    have : (x.id == pid) = false := by
      simp only [beq_eq_false_iff_ne]; omega
    simp only [List.map_cons, this, if_neg]
    rw [ih (fun p hp => h p (List.mem_cons_of_mem _ hp))]
    simp

/-- Reading a key straight after `cachePut` of that key yields the stored
value while the TTL has not elapsed. -/
theorem cacheGet_cachePut_same (cache : List (String × CacheEntry)) (key : String)
    (v : GeminiResponse) (now ttl t : Nat) :
    cacheGet (cachePut cache key v now ttl) key t =
      if t < now + ttl then some v else none := by
  unfold cacheGet cachePut
  simp

/-- No row of a project strictly above every recorded project reference means
the project has no versions, so its greatest version reads as 0. -/
theorem lastVersionNum_eq_zero (versions : List VersionRow) (pid : Nat)
    (h : ∀ v ∈ versions, v.project_id ≠ pid) :
    lastVersionNum versions pid = 0 := by
  induction versions with
  | nil => rfl
  | cons x xs ih =>
    have hx : x.project_id ≠ pid := h x (List.mem_cons_self _ _)
    have : (x.project_id == pid) = false := by simp [hx]
    unfold lastVersionNum
    simp only [List.foldr_cons, this, if_neg]
    exact ih (fun v hv => h v (List.mem_cons_of_mem _ hv))

theorem le_lastVersionNum (versions : List VersionRow) (pid : Nat)
    (v : VersionRow) (hv : v ∈ versions) (hpid : v.project_id = pid) :
    v.version ≤ lastVersionNum versions pid := by
  induction versions with
  | nil => cases hv
  | cons x xs ih =>
    unfold lastVersionNum
    rcases List.mem_cons.mp hv with rfl | hmem
    · simp only [List.foldr_cons, hpid, beq_self_eq_true, if_pos]
      exact Nat.le_max_left _ _
    · simp only [List.foldr_cons]
      split
      · exact le_trans (ih hmem) (Nat.le_max_right _ _)
      · exact ih hmem

theorem lastVersionNum_foldr_base (versions : List VersionRow) (pid : Nat) (b : Nat) :
    versions.foldr (fun v acc => if v.project_id == pid then max v.version acc else acc) b
      = max (lastVersionNum versions pid) b := by
  induction versions generalizing b with
  | nil => simp [lastVersionNum]
  | cons x xs ih =>
    simp only [lastVersionNum, List.foldr_cons] at *
    split <;> rw [ih] <;> omega

theorem lastVersionNum_cons (x : VersionRow) (l : List VersionRow) (pid : Nat) :
    lastVersionNum (x :: l) pid =
      if x.project_id == pid then max x.version (lastVersionNum l pid)
      else lastVersionNum l pid := rfl

theorem lastVersionNum_append (vs : List VersionRow) (r : VersionRow) (pid : Nat) :
    lastVersionNum (vs ++ [r]) pid =
      if r.project_id == pid then max (lastVersionNum vs pid) r.version
      else lastVersionNum vs pid := by
  induction vs with
  | nil =>
    simp only [List.nil_append, lastVersionNum_cons]
    cases h : r.project_id == pid <;> simp [lastVersionNum] <;> omega
  | cons x xs ih =>
    simp only [List.cons_append, lastVersionNum_cons, ih]
    cases h : r.project_id == pid <;> cases h2 : x.project_id == pid <;>
      simp only [if_true, if_false, Bool.false_eq_true] <;> omega

/-- C4: `insertProjectVersion` assigns version = (greatest existing version of
the project, or 0 when it has none) + 1.  In particular a project whose
greatest version is 3 gets version 4; the new number is strictly above every
existing version of the project (unique, never reused); and an immediately
following insert gets the successor (strictly increasing, never skipped). -/
theorem C4_version_numbering (st : St) (pid : Nat)
    (o o2 : List String) (s s2 : List ScriptSection) (seo seo2 : SeoMetadata) :
    (insertProjectVersion st pid o s seo).1.version
        = lastVersionNum st.versions pid + 1 ∧
    (lastVersionNum st.versions pid = 3 →
        (insertProjectVersion st pid o s seo).1.version = 4) ∧
    (∀ v ∈ st.versions, v.project_id = pid →
        v.version < (insertProjectVersion st pid o s seo).1.version) ∧
    (insertProjectVersion (insertProjectVersion st pid o s seo).2 pid o2 s2 seo2).1.version
        = (insertProjectVersion st pid o s seo).1.version + 1 := by
  refine ⟨rfl, ?_, ?_, ?_⟩
  · intro h3; simp [insertProjectVersion, h3]
  · intro v hv hpid
    have := le_lastVersionNum st.versions pid v hv hpid
    simp only [insertProjectVersion]
    omega
  · simp only [insertProjectVersion]
    rw [lastVersionNum_append]
    simp only [beq_self_eq_true, if_pos]
    omega

/-- Witness for C4 at a concrete state: project 1 sits at version 3 and the
next insert yields version 4. -/
theorem C4_version_numbering_witness :
    lastVersionNum stEx.versions 1 = 3 ∧
    (insertProjectVersion stEx 1 [] [] seoEx).1.version = 4 :=
  ⟨by decide, (C4_version_numbering stEx 1 [] [] [] [] seoEx seoEx).2.1 (by decide)⟩

theorem getProjectById_ensureUser (st : St) (s : String) (e n : Option String)
    (pid : Nat) :
    getProjectById (ensureUser st s e n).2 pid = getProjectById st pid := by
  unfold getProjectById; rw [ensureUser_projects]

/-- C7 counterexample: at a concrete state with no project 99, a script
request for project 99 by an authenticated user yields status 400 (the
`badRequest("Project not found")` helper), not the 404 the claim asserts. -/
theorem C7_counterexample :
    (scriptPOST scriptDepsEx (some "A") none none
        (some ⟨"T", none, none, none, some 99, false⟩) stEx).1
      = badRequest "Project not found" ∧
    ¬ (scriptPOST scriptDepsEx (some "A") none none
        (some ⟨"T", none, none, none, some 99, false⟩) stEx).1.status = 404 := by
  constructor <;> decide

/-- C7 amended: a generation request for a projectId matching no project is
answered by every route with `badRequest("Project not found")` — HTTP 400
with a short message, not 404: the not-found case is folded into BadRequest.
The response is still distinct from the 403 returned when the project exists
but belongs to another user. -/
theorem C7_amended_not_found_is_400 (st : St) (sub : String) (e n : Option String)
    (hs : (sub == "") = false)
    (sd : ScriptDeps) (pS : ScriptBody) (pid : Nat)
    (hT : (pS.topic == "") = false) (hP : pS.projectId = some pid)
    (hlook : getProjectById st pid = none)
    (idp : ImageDeps) (pI : ImageBody)
    (hIp : pI.projectId = some pid) (hIpr : (pI.prompt == "") = false)
    (td : TtsDeps) (pT : TtsBody)
    (hTp : pT.projectId = some pid) (hTs : pT.sections.isEmpty = false) :
    (scriptPOST sd (some sub) e n (some pS) st).1 = badRequest "Project not found" ∧
    (imagePOST idp (some sub) e n (some pI) st).1 = badRequest "Project not found" ∧
    (ttsPOST td (some sub) e n (some pT) st).1 = badRequest "Project not found" ∧
    (badRequest "Project not found").status = 400 ∧
    (badRequest "Project not found").status
        ≠ (forbidden "Project does not belong to user").status := by
  rcases hEU : ensureUser st sub e n with ⟨user, st1⟩
  have hl2 : getProjectById st1 pid = none := by
    have h := getProjectById_ensureUser st sub e n pid
    rw [hEU] at h; exact h.trans hlook
  have hs' : ¬ sub = "" := by simpa using hs
  refine ⟨?_, ?_, ?_, by decide, by decide⟩
  · simp [scriptPOST, truthy, hs, hs', hT, hP, hEU, hl2]
  · simp [imagePOST, truthy, hs, hs', hIp, hIpr, hEU, hl2]
  · simp [ttsPOST, truthy, hs, hs', hTp, hTs, hEU, hl2]

/-- Witness for the amended C7 at a concrete state and concrete requests. -/
theorem C7_amended_not_found_is_400_witness :
    (scriptPOST scriptDepsEx (some "A") none none
        (some ⟨"T", none, none, none, some 99, false⟩) stEx).1
      = badRequest "Project not found" :=
  (C7_amended_not_found_is_400 stEx "A" none none (by decide)
    scriptDepsEx ⟨"T", none, none, none, some 99, false⟩ 99 (by decide) rfl (by decide)
    ⟨.error "x"⟩ ⟨some 99, "p", none, none, none⟩ rfl (by decide)
    ⟨fun _ => .error "x"⟩ ⟨some 99, [⟨none, none, "t"⟩]⟩ rfl (by decide)).1

/-- C1 counterexample: at a concrete state where user "A" (id 0) owns project
1, a script request for project 1 authenticated as the fresh user "B" is
answered 403, yet the persisted state is NOT unchanged: `ensureUser` runs
before the ownership check and inserts a users row for "B". -/
theorem C1_counterexample :
    (scriptPOST scriptDepsEx (some "B") none none (some scriptBodyEx) stEx).1
      = forbidden "Project does not belong to user" ∧
    ¬ (scriptPOST scriptDepsEx (some "B") none none (some scriptBodyEx) stEx).2.users
      = stEx.users := by
  constructor <;> decide

/-- C1 amended: a generation request (script, image or tts) naming a project
whose owner differs from the resolved caller is answered 403, and leaves the
projects, project_versions, assets, generation_jobs tables and the cache and
bucket unchanged — no ProjectVersion/Asset/GenerationJob row is created.  The
users table, however, may be changed by the `ensureUser` upsert performed
before the ownership check (the final state is exactly the post-upsert
state). -/
theorem C1_amended_forbidden_no_rows (st : St) (sub : String) (e n : Option String)
    (hs : (sub == "") = false) (pid : Nat) (project : ProjectRow)
    (hproj : getProjectById st pid = some project)
    (ho : (project.user_id == (ensureUser st sub e n).1.id) = false)
    (sd : ScriptDeps) (pS : ScriptBody)
    (hT : (pS.topic == "") = false) (hP : pS.projectId = some pid)
    (idp : ImageDeps) (pI : ImageBody)
    (hIp : pI.projectId = some pid) (hIpr : (pI.prompt == "") = false)
    (td : TtsDeps) (pT : TtsBody)
    (hTp : pT.projectId = some pid) (hTs : pT.sections.isEmpty = false) :
    scriptPOST sd (some sub) e n (some pS) st
      = (forbidden "Project does not belong to user", (ensureUser st sub e n).2) ∧
    imagePOST idp (some sub) e n (some pI) st
      = (forbidden "Project does not belong to user", (ensureUser st sub e n).2) ∧
    ttsPOST td (some sub) e n (some pT) st
      = (forbidden "Project does not belong to user", (ensureUser st sub e n).2) ∧
    (ensureUser st sub e n).2.projects = st.projects ∧
    (ensureUser st sub e n).2.versions = st.versions ∧
    (ensureUser st sub e n).2.assets = st.assets ∧
    (ensureUser st sub e n).2.jobs = st.jobs ∧
    (ensureUser st sub e n).2.cache = st.cache ∧
    (ensureUser st sub e n).2.bucket = st.bucket := by
  have hs' : ¬ sub = "" := by simpa using hs
  rcases hEU : ensureUser st sub e n with ⟨user, st1⟩
  have hl2 : getProjectById st1 pid = some project := by
    have h := getProjectById_ensureUser st sub e n pid
    rw [hEU] at h; exact h.trans hproj
  rw [hEU] at ho
  have ho' : ¬ project.user_id = user.id := by simpa using ho
  refine ⟨?_, ?_, ?_,
    by rw [← hEU]; exact ensureUser_projects st sub e n,
    by rw [← hEU]; exact ensureUser_versions st sub e n,
    by rw [← hEU]; exact ensureUser_assets st sub e n,
    by rw [← hEU]; exact ensureUser_jobs st sub e n,
    by rw [← hEU]; exact ensureUser_cache st sub e n,
    by rw [← hEU]; exact ensureUser_bucket st sub e n⟩
  · simp [scriptPOST, truthy, hs, hs', hT, hP, hEU, hl2, ho, ho']
  · simp [imagePOST, truthy, hs, hs', hIp, hIpr, hEU, hl2, ho, ho']
  · simp [ttsPOST, truthy, hs, hs', hTp, hTs, hEU, hl2, ho, ho']

/-- Witness for the amended C1 at a concrete state and concrete requests. -/
theorem C1_amended_forbidden_no_rows_witness :
    scriptPOST scriptDepsEx (some "B") none none (some scriptBodyEx) stEx
      = (forbidden "Project does not belong to user",
         (ensureUser stEx "B" none none).2) :=
  (C1_amended_forbidden_no_rows stEx "B" none none (by decide) 1
    ⟨1, 0, some "T", some "T", none, "draft"⟩ (by decide) (by decide)
    scriptDepsEx scriptBodyEx (by decide) rfl
    ⟨.error "x"⟩ ⟨some 1, "p", none, none, none⟩ rfl (by decide)
    ⟨fun _ => .error "x"⟩ ⟨some 1, [⟨none, none, "t"⟩]⟩ rfl (by decide)).1

/-- C10: a script request that omits projectId and hits the cache (regenerate
unset, matching unexpired entry) nevertheless creates a new Project before
the cache is consulted; the response names that new project with cached:
true; the project is left in status 'draft' with zero ProjectVersions and
zero GenerationJobs; and apart from the project insert and the user upsert
nothing is mutated (versions, assets, jobs, cache and bucket all unchanged). -/
theorem C10_cache_hit_still_creates_project (st : St) (sub : String)
    (e n : Option String) (sd : ScriptDeps) (p : ScriptBody) (r : GeminiResponse)
    (hs : (sub == "") = false) (hT : (p.topic == "") = false)
    (hP : p.projectId = none) (hR : p.regenerate = false)
    (hhit : cacheGet st.cache ("script:" ++ sd.hash (cacheBase p)) sd.now = some r)
    (hF : st.fresh) :
    ∃ proj st2,
      scriptPOST sd (some sub) e n (some p) st = (⟨200, .script proj.id true r⟩, st2) ∧
      proj.status = "draft" ∧
      st2.projects = st.projects ++ [proj] ∧
      st2.users = (ensureUser st sub e n).2.users ∧
      st2.versions = st.versions ∧ st2.jobs = st.jobs ∧ st2.assets = st.assets ∧
      st2.cache = st.cache ∧ st2.bucket = st.bucket ∧
      (∀ v ∈ st2.versions, v.project_id ≠ proj.id) ∧
      (∀ j ∈ st2.jobs, j.project_id ≠ proj.id) ∧
      (∀ a ∈ st2.assets, a.project_id ≠ proj.id) := by
  have hs' : ¬ sub = "" := by simpa using hs
  rcases hEU : ensureUser st sub e n with ⟨user, st1⟩
  have hEUs : (ensureUser st sub e n).2 = st1 := by rw [hEU]
  rcases hCP : createProject st1 user.id (some p.topic) (some p.topic) none
    with ⟨proj, st2⟩
  have hCPf : (createProject st1 user.id (some p.topic) (some p.topic) none).1 = proj := by
    rw [hCP]
  have hCPs : (createProject st1 user.id (some p.topic) (some p.topic) none).2 = st2 := by
    rw [hCP]
  have hprojid : proj.id = st1.nextId := by rw [← hCPf]; rfl
  have hstatus : proj.status = "draft" := by rw [← hCPf]; rfl
  have hprojs1 : st1.projects = st.projects := by
    rw [← hEUs]; exact ensureUser_projects st sub e n
  have hprojs2 : st2.projects = st1.projects ++ [proj] := by rw [← hCPs, ← hCPf]; rfl
  have hc1 : st1.cache = st.cache := by rw [← hEUs]; exact ensureUser_cache st sub e n
  have hc2 : st2.cache = st1.cache := by rw [← hCPs]; rfl
  have hv1 : st1.versions = st.versions := by
    rw [← hEUs]; exact ensureUser_versions st sub e n
  have hv2 : st2.versions = st1.versions := by rw [← hCPs]; rfl
  have hj1 : st1.jobs = st.jobs := by rw [← hEUs]; exact ensureUser_jobs st sub e n
  have hj2 : st2.jobs = st1.jobs := by rw [← hCPs]; rfl
  have ha1 : st1.assets = st.assets := by rw [← hEUs]; exact ensureUser_assets st sub e n
  have ha2 : st2.assets = st1.assets := by rw [← hCPs]; rfl
  have hb1 : st1.bucket = st.bucket := by rw [← hEUs]; exact ensureUser_bucket st sub e n
  have hb2 : st2.bucket = st1.bucket := by rw [← hCPs]; rfl
  have hu2 : st2.users = st1.users := by rw [← hCPs]; rfl
  have hn1 : st.nextId ≤ st1.nextId := by
    rw [← hEUs]; exact ensureUser_nextId_le st sub e n
  have hhit2 : cacheGet st2.cache ("script:" ++ sd.hash (cacheBase p)) sd.now = some r := by
    rw [hc2, hc1]; exact hhit
  refine ⟨proj, st2, ?_, hstatus, by rw [hprojs2, hprojs1], by rw [hu2],
    by rw [hv2, hv1], by rw [hj2, hj1], by rw [ha2, ha1],
    by rw [hc2, hc1], by rw [hb2, hb1], ?_, ?_, ?_⟩
  · simp [scriptPOST, scriptGenerate, truthy, hs, hs', hT, hP, hR, hEU, hCP, hhit2]
  · intro v hv
    rw [hv2, hv1] at hv
    have := (hF.2.2.1 v hv).2
    omega
  · intro j hj
    rw [hj2, hj1] at hj
    have := (hF.2.2.2.2 j hj).2
    omega
  · intro a ha
    rw [ha2, ha1] at ha
    have := (hF.2.2.2.1 a ha).2
    omega

/-- Witness for C10: the concrete cached state `stExCache` with the fresh
caller "B". -/
theorem C10_cache_hit_still_creates_project_witness :
    ∃ proj st2,
      scriptPOST scriptDepsEx (some "B") none none (some scriptBodyNoProj) stExCache
        = (⟨200, .script proj.id true geminiEx⟩, st2) ∧
      proj.status = "draft" ∧
      st2.projects = stExCache.projects ++ [proj] ∧
      st2.users = (ensureUser stExCache "B" none none).2.users ∧
      st2.versions = stExCache.versions ∧ st2.jobs = stExCache.jobs ∧
      st2.assets = stExCache.assets ∧
      st2.cache = stExCache.cache ∧ st2.bucket = stExCache.bucket ∧
      (∀ v ∈ st2.versions, v.project_id ≠ proj.id) ∧
      (∀ j ∈ st2.jobs, j.project_id ≠ proj.id) ∧
      (∀ a ∈ st2.assets, a.project_id ≠ proj.id) :=
  C10_cache_hit_still_creates_project stExCache "B" none none scriptDepsEx
    scriptBodyNoProj geminiEx (by decide) (by decide) rfl rfl (by decide) (by decide)

/-- Full characterization of the script route's generate path (regenerate
unset, cache miss, provider success) over a state whose projects are split
as older rows `P` plus the resolved project. -/
theorem scriptGenerate_path (sd : ScriptDeps) (p : ScriptBody) (proj : ProjectRow)
    (S : St) (r : GeminiResponse) (P : List ProjectRow)
    (hR : p.regenerate = false)
    (hmiss : cacheGet S.cache ("script:" ++ sd.hash (cacheBase p)) sd.now = none)
    (hprov : sd.provider = .ok r)
    (hSp : S.projects = P ++ [proj])
    (hPid : ∀ q ∈ P, q.id < proj.id)
    (hnov : ∀ v ∈ S.versions, v.project_id ≠ proj.id)
    (hjobs : ∀ j ∈ S.jobs, j.id < S.nextId) :
    scriptGenerate sd p proj.id S =
      (⟨200, .script proj.id false r⟩,
       { users := S.users,
         projects := P ++
           [⟨proj.id, proj.user_id, some r.seo.title, some p.topic,
             proj.target_length, "ready"⟩],
         versions := S.versions ++ [⟨S.nextId + 1, proj.id, 1, r.sections, r.outline, r.seo⟩],
         assets := S.assets,
         jobs := S.jobs ++ [⟨S.nextId, proj.id, "script", "succeeded", none⟩],
         cache := cachePut S.cache ("script:" ++ sd.hash (cacheBase p)) r sd.now scriptTTL,
         bucket := S.bucket,
         nextId := S.nextId + 2 }) := by
  have hv0 : lastVersionNum S.versions proj.id = 0 :=
    lastVersionNum_eq_zero S.versions proj.id hnov
  have hmapP : P.map (fun q =>
      if q.id == proj.id then
        { id := q.id, user_id := q.user_id, title := some r.seo.title,
          topic := some p.topic, target_length := q.target_length,
          status := "ready" }
      else q) = P :=
    map_update_pid_eq_of_lt P proj.id
      (fun q => { id := q.id, user_id := q.user_id, title := some r.seo.title,
                  topic := some p.topic, target_length := q.target_length,
                  status := "ready" }) hPid
  have hmapJ : S.jobs.map (fun j =>
      if j.id == S.nextId then { j with status := "succeeded", error := none } else j)
      = S.jobs :=
    map_update_id_eq_of_lt S.jobs S.nextId
      (fun j => { j with status := "succeeded", error := none }) hjobs
  simp only [scriptGenerate, hR, Bool.false_eq_true, if_false, hmiss, hprov,
    insertGenerationJob, insertProjectVersion, updateProjectMetadata,
    updateGenerationJobStatus, coalesce, Option.getD_some, hv0, Nat.zero_add,
    hSp, List.map_append, hmapP, List.map_cons, List.map_nil,
    beq_self_eq_true, if_pos, hmapJ]

/-- C8: a script request carrying only a topic, from an authenticated subject
with no existing User row, with a cache miss and a successful provider call,
creates exactly one User, exactly one Project (inserted 'draft', finished
'ready'), exactly one ProjectVersion with version 1, and exactly one
GenerationJob inserted in status 'running' and finished 'succeeded', all
within the one request; the cache is populated and nothing else changes. -/
theorem C8_fresh_user_script_success (st : St) (sub : String) (e n : Option String)
    (sd : ScriptDeps) (p : ScriptBody) (r : GeminiResponse)
    (hs : (sub == "") = false)
    (hfind : st.users.find? (fun u => u.access_sub == sub) = none)
    (hT : (p.topic == "") = false) (hP : p.projectId = none)
    (hR : p.regenerate = false)
    (hmiss : cacheGet st.cache ("script:" ++ sd.hash (cacheBase p)) sd.now = none)
    (hprov : sd.provider = .ok r) (hF : st.fresh) :
    ∃ (u : UserRow) (proj : ProjectRow) (ver : VersionRow) (job : JobRow) (st' : St),
      scriptPOST sd (some sub) e n (some p) st = (⟨200, .script proj.id false r⟩, st') ∧
      u.access_sub = sub ∧ st'.users = st.users ++ [u] ∧
      proj.status = "draft" ∧ proj.user_id = u.id ∧
      st'.projects = st.projects ++
        [⟨proj.id, proj.user_id, some r.seo.title, some p.topic,
          proj.target_length, "ready"⟩] ∧
      ver.project_id = proj.id ∧ ver.version = 1 ∧
      st'.versions = st.versions ++ [ver] ∧
      job.project_id = proj.id ∧ job.job_type = "script" ∧ job.status = "running" ∧
      st'.jobs = st.jobs ++
        [⟨job.id, job.project_id, job.job_type, "succeeded", none⟩] ∧
      st'.assets = st.assets ∧ st'.bucket = st.bucket ∧
      st'.cache = cachePut st.cache ("script:" ++ sd.hash (cacheBase p)) r
        sd.now scriptTTL := by
  have hs' : ¬ sub = "" := by simpa using hs
  obtain ⟨hFu, hFp, hFv, hFa, hFj⟩ := hF
  have hEU : ensureUser st sub e n =
      (⟨st.nextId, sub, e, n⟩,
       { st with users := st.users ++ [⟨st.nextId, sub, e, n⟩],
                 nextId := st.nextId + 1 }) := by
    unfold ensureUser; rw [hfind]
  have hCP : createProject
      { st with users := st.users ++ [⟨st.nextId, sub, e, n⟩],
                nextId := st.nextId + 1 }
      st.nextId (some p.topic) (some p.topic) none =
      (⟨st.nextId + 1, st.nextId, some p.topic, some p.topic, none, "draft"⟩,
       { st with users := st.users ++ [⟨st.nextId, sub, e, n⟩],
                 projects := st.projects ++
                   [⟨st.nextId + 1, st.nextId, some p.topic, some p.topic,
                     none, "draft"⟩],
                 nextId := st.nextId + 2 }) := rfl
  have hmain : scriptPOST sd (some sub) e n (some p) st =
      scriptGenerate sd p (st.nextId + 1)
        { st with users := st.users ++ [⟨st.nextId, sub, e, n⟩],
                  projects := st.projects ++
                    [⟨st.nextId + 1, st.nextId, some p.topic, some p.topic,
                      none, "draft"⟩],
                  nextId := st.nextId + 2 } := by
    simp [scriptPOST, truthy, hs, hs', hT, hP, hEU, hCP]
  have hpath := scriptGenerate_path sd p
    ⟨st.nextId + 1, st.nextId, some p.topic, some p.topic, none, "draft"⟩
    { st with users := st.users ++ [⟨st.nextId, sub, e, n⟩],
              projects := st.projects ++
                [⟨st.nextId + 1, st.nextId, some p.topic, some p.topic,
                  none, "draft"⟩],
              nextId := st.nextId + 2 }
    r st.projects hR hmiss hprov rfl
    (fun q hq => by have := hFp q hq; show q.id < st.nextId + 1; omega)
    (fun v hv => by have := (hFv v hv).2; show v.project_id ≠ st.nextId + 1; omega)
    (fun j hj => by have := (hFj j hj).1; simp; omega)
  refine ⟨⟨st.nextId, sub, e, n⟩,
    ⟨st.nextId + 1, st.nextId, some p.topic, some p.topic, none, "draft"⟩,
    ⟨st.nextId + 3, st.nextId + 1, 1, r.sections, r.outline, r.seo⟩,
    ⟨st.nextId + 2, st.nextId + 1, "script", "running", none⟩,
    _, hmain.trans hpath, rfl, rfl, rfl, rfl, rfl, rfl, rfl, rfl, rfl, rfl,
    rfl, rfl, rfl, rfl, rfl⟩

/-- Inversion: a non-cached 200 response from the generate path implies the
provider succeeded with the returned result and the final cache answers the
request's key with that result until the TTL elapses. -/
theorem scriptGenerate_success_inv (sd : ScriptDeps) (p : ScriptBody) (pid : Nat)
    (S : St) (pid2 : Nat) (r : GeminiResponse) (st' : St)
    (h : scriptGenerate sd p pid S = (⟨200, .script pid2 false r⟩, st'))
    (t : Nat) (ht : t < sd.now + scriptTTL) :
    cacheGet st'.cache ("script:" ++ sd.hash (cacheBase p)) t = some r ∧
    sd.provider = .ok r := by
  unfold scriptGenerate at h
  simp only [] at h
  rcases hc : (if p.regenerate then none
      else cacheGet S.cache ("script:" ++ sd.hash (cacheBase p)) sd.now) with _ | cached
  · rw [hc] at h
    rcases hpr : sd.provider with msg | res <;> rw [hpr] at h
    · simp [Prod.ext_iff, Resp.mk.injEq] at h
    · simp only [Prod.mk.injEq, Resp.mk.injEq, RespBody.script.injEq] at h
      obtain ⟨h1, hstate⟩ := h
      have hres : res = r := by tauto
      subst hres
      refine ⟨?_, rfl⟩
      rw [← hstate]
      show cacheGet
        (cachePut S.cache ("script:" ++ sd.hash (cacheBase p)) res sd.now scriptTTL)
        ("script:" ++ sd.hash (cacheBase p)) t = some res
      rw [cacheGet_cachePut_same]
      exact if_pos ht
  · rw [hc] at h
    simp [Prod.ext_iff, Resp.mk.injEq, RespBody.script.injEq] at h

/-- Inversion at the route level: a 200 `cached: false` response implies the
route went through the generate path, so the final cache holds the result
under the request's key for the whole TTL. -/
theorem scriptPOST_success_inv (sd : ScriptDeps) (us ue un : Option String)
    (p : ScriptBody) (st : St) (pid2 : Nat) (r : GeminiResponse) (st' : St)
    (h : scriptPOST sd us ue un (some p) st = (⟨200, .script pid2 false r⟩, st'))
    (t : Nat) (ht : t < sd.now + scriptTTL) :
    cacheGet st'.cache ("script:" ++ sd.hash (cacheBase p)) t = some r ∧
    sd.provider = .ok r := by
  unfold scriptPOST at h
  rcases hu : truthy us with _ | _
  · rw [hu] at h; simp [unauthorizedResp, Prod.ext_iff, Resp.mk.injEq] at h
  · rw [hu] at h
    simp only [Bool.not_true, Bool.false_eq_true, if_false] at h
    rcases ht2 : p.topic == "" with _ | _ <;> rw [ht2] at h
    · simp only [Bool.false_eq_true, if_false] at h
      rcases hEU : ensureUser st (us.getD "") ue un with ⟨user, st1⟩
      rw [hEU] at h
      simp only [] at h
      rcases hpid : p.projectId with _ | pid0 <;> rw [hpid] at h <;>
        simp only [] at h
      · rcases hCP : createProject st1 user.id (some p.topic) (some p.topic) none
          with ⟨proj, st2⟩
        rw [hCP] at h
        exact scriptGenerate_success_inv sd p proj.id st2 pid2 r st' h t ht
      · rcases hgp : getProjectById st1 pid0 with _ | proj <;> rw [hgp] at h <;>
          simp only [] at h
        · simp [badRequest, Prod.ext_iff, Resp.mk.injEq] at h
        · rcases ho : proj.user_id != user.id with _ | _ <;> rw [ho] at h
          · simp only [Bool.false_eq_true, if_false] at h
            exact scriptGenerate_success_inv sd p proj.id st1 pid2 r st' h t ht
          · simp [forbidden, Prod.ext_iff, Resp.mk.injEq] at h
    · simp [badRequest, Prod.ext_iff, Resp.mk.injEq] at h

/-- The generate path on a cache hit with regenerate unset: the cached value
is returned with cached = true and the state is untouched. -/
theorem scriptGenerate_hit (sd : ScriptDeps) (p : ScriptBody) (pid : Nat) (S : St)
    (r : GeminiResponse) (hR : p.regenerate = false)
    (hhit : cacheGet S.cache ("script:" ++ sd.hash (cacheBase p)) sd.now = some r) :
    scriptGenerate sd p pid S = (⟨200, .script pid true r⟩, S) := by
  simp [scriptGenerate, hR, hhit]

/-- The cache key input depends only on topic, persona, lengthMinutes and
language. -/
theorem cacheBase_eq_of_fields (b1 b2 : ScriptBody)
    (ht : b2.topic = b1.topic) (hp : b2.persona = b1.persona)
    (hl : b2.lengthMinutes = b1.lengthMinutes) (hg : b2.language = b1.language) :
    cacheBase b2 = cacheBase b1 := by
  unfold cacheBase; rw [ht, hp, hl, hg]

/-- A script request meeting a live cache entry for its key (regenerate
unset, caller authenticated, project reference resolving to an owned project
or absent) returns the cached result with cached: true and mutates none of
versions, jobs, assets, cache or bucket, whatever the provider outcome. -/
theorem scriptPOST_cached_flow (hash : String → String)
    (prov2 : Except String GeminiResponse) (now2 : Nat) (st1 : St)
    (sub2 : String) (ue2 un2 : Option String) (hs : (sub2 == "") = false)
    (p2 : ScriptBody) (r : GeminiResponse)
    (hT2 : (p2.topic == "") = false) (hR : p2.regenerate = false)
    (hcache : cacheGet st1.cache ("script:" ++ hash (cacheBase p2)) now2 = some r)
    (hres : p2.projectId = none ∨ ∃ pid proj, p2.projectId = some pid ∧
        getProjectById st1 pid = some proj ∧
        proj.user_id = (ensureUser st1 sub2 ue2 un2).1.id) :
    ∃ (pid2 : Nat) (st2 : St),
      scriptPOST ⟨hash, prov2, now2⟩ (some sub2) ue2 un2 (some p2) st1
        = (⟨200, .script pid2 true r⟩, st2) ∧
      st2.versions = st1.versions ∧ st2.jobs = st1.jobs ∧
      st2.assets = st1.assets ∧ st2.cache = st1.cache ∧ st2.bucket = st1.bucket := by
  have hs' : ¬ sub2 = "" := by simpa using hs
  rcases hEU : ensureUser st1 sub2 ue2 un2 with ⟨user2, stA⟩
  have hEUs : (ensureUser st1 sub2 ue2 un2).2 = stA := by rw [hEU]
  have hcA : stA.cache = st1.cache := by
    rw [← hEUs]; exact ensureUser_cache st1 sub2 ue2 un2
  have hvA : stA.versions = st1.versions := by
    rw [← hEUs]; exact ensureUser_versions st1 sub2 ue2 un2
  have hjA : stA.jobs = st1.jobs := by
    rw [← hEUs]; exact ensureUser_jobs st1 sub2 ue2 un2
  have haA : stA.assets = st1.assets := by
    rw [← hEUs]; exact ensureUser_assets st1 sub2 ue2 un2
  have hbA : stA.bucket = st1.bucket := by
    rw [← hEUs]; exact ensureUser_bucket st1 sub2 ue2 un2
  rcases hres with hnone | ⟨pid, proj, hpid, hgp, ho⟩
  · rcases hCP : createProject stA user2.id (some p2.topic) (some p2.topic) none
      with ⟨proj2, stB⟩
    have hCPs : (createProject stA user2.id (some p2.topic) (some p2.topic) none).2
        = stB := by rw [hCP]
    have hcB : stB.cache = stA.cache := by rw [← hCPs]; rfl
    have hvB : stB.versions = stA.versions := by rw [← hCPs]; rfl
    have hjB : stB.jobs = stA.jobs := by rw [← hCPs]; rfl
    have haB : stB.assets = stA.assets := by rw [← hCPs]; rfl
    have hbB : stB.bucket = stA.bucket := by rw [← hCPs]; rfl
    have hhit : cacheGet stB.cache
        ("script:" ++ hash (cacheBase p2)) now2 = some r := by
      rw [hcB, hcA]; exact hcache
    refine ⟨proj2.id, stB, ?_, by rw [hvB, hvA], by rw [hjB, hjA],
      by rw [haB, haA], by rw [hcB, hcA], by rw [hbB, hbA]⟩
    have hgen := scriptGenerate_hit ⟨hash, prov2, now2⟩ p2 proj2.id stB r hR hhit
    simp [scriptPOST, truthy, hs, hs', hT2, hnone, hEU, hCP]
    exact hgen
  · have ho2 : (proj.user_id != user2.id) = false := by
      rw [hEU] at ho; simp [ho]
    have hgpA : getProjectById stA pid = some proj := by
      have h := getProjectById_ensureUser st1 sub2 ue2 un2 pid
      rw [hEUs] at h; exact h.trans hgp
    have hhit : cacheGet stA.cache
        ("script:" ++ hash (cacheBase p2)) now2 = some r := by
      rw [hcA]; exact hcache
    refine ⟨proj.id, stA, ?_, hvA, hjA, haA, hcA, hbA⟩
    have hgen := scriptGenerate_hit ⟨hash, prov2, now2⟩ p2 proj.id stA r hR hhit
    simp [scriptPOST, truthy, hs, hs', hT2, hpid, hEU, hgpA, ho2]
    exact hgen

/-- C3: after a script request completes successfully (200, cached: false),
any second script request with the same topic/persona/lengthMinutes/language,
regenerate unset, issued within the 6-hour TTL by an authenticated caller
whose project reference (if any) resolves and is owned, returns 200 with
cached: true and the first request's result, for EVERY provider outcome
`prov2` (the provider is not consulted), and creates no GenerationJob,
ProjectVersion or Asset and leaves the cache and bucket untouched. -/
theorem C3_second_request_dedup (sd1 : ScriptDeps) (us1 ue1 un1 : Option String)
    (p1 : ScriptBody) (st st1 : St) (pid1 : Nat) (r : GeminiResponse)
    (h1 : scriptPOST sd1 us1 ue1 un1 (some p1) st = (⟨200, .script pid1 false r⟩, st1))
    (prov2 : Except String GeminiResponse) (now2 : Nat)
    (hnow : now2 < sd1.now + scriptTTL)
    (sub2 : String) (ue2 un2 : Option String) (hs : (sub2 == "") = false)
    (p2 : ScriptBody)
    (hft : p2.topic = p1.topic) (hfp : p2.persona = p1.persona)
    (hfl : p2.lengthMinutes = p1.lengthMinutes) (hfg : p2.language = p1.language)
    (hT1 : (p1.topic == "") = false) (hR : p2.regenerate = false)
    (hres : p2.projectId = none ∨ ∃ pid proj, p2.projectId = some pid ∧
        getProjectById st1 pid = some proj ∧
        proj.user_id = (ensureUser st1 sub2 ue2 un2).1.id) :
    ∃ (pid2 : Nat) (st2 : St),
      scriptPOST ⟨sd1.hash, prov2, now2⟩ (some sub2) ue2 un2 (some p2) st1
        = (⟨200, .script pid2 true r⟩, st2) ∧
      st2.versions = st1.versions ∧ st2.jobs = st1.jobs ∧
      st2.assets = st1.assets ∧ st2.cache = st1.cache ∧ st2.bucket = st1.bucket := by
  have hT2 : (p2.topic == "") = false := by rw [hft]; exact hT1
  have hkey : cacheBase p2 = cacheBase p1 := cacheBase_eq_of_fields p1 p2 hft hfp hfl hfg
  have hcache : cacheGet st1.cache ("script:" ++ sd1.hash (cacheBase p2)) now2 = some r := by
    rw [hkey]
    exact (scriptPOST_success_inv sd1 us1 ue1 un1 p1 st pid1 r st1 h1 now2 hnow).1
  exact scriptPOST_cached_flow sd1.hash prov2 now2 st1 sub2 ue2 un2 hs p2 r
    hT2 hR hcache hres

/-- Witness for C3: a first request from "A" over the empty state populates
the cache; a second identical request, made while the entry is live and with
a failing provider, still returns the cached result. -/
theorem C3_second_request_dedup_witness :
    ∃ (pid2 : Nat) (st2 : St),
      scriptPOST ⟨scriptDepsEx.hash, .error "provider down", 2000⟩ (some "A")
        none none (some scriptBodyNoProj)
        ((scriptPOST scriptDepsEx (some "A") none none (some scriptBodyNoProj)
          stEmpty).2)
        = (⟨200, .script pid2 true geminiEx⟩, st2) ∧
      st2.versions = ((scriptPOST scriptDepsEx (some "A") none none
        (some scriptBodyNoProj) stEmpty).2).versions ∧
      st2.jobs = ((scriptPOST scriptDepsEx (some "A") none none
        (some scriptBodyNoProj) stEmpty).2).jobs ∧
      st2.assets = ((scriptPOST scriptDepsEx (some "A") none none
        (some scriptBodyNoProj) stEmpty).2).assets ∧
      st2.cache = ((scriptPOST scriptDepsEx (some "A") none none
        (some scriptBodyNoProj) stEmpty).2).cache ∧
      st2.bucket = ((scriptPOST scriptDepsEx (some "A") none none
        (some scriptBodyNoProj) stEmpty).2).bucket :=
  C3_second_request_dedup scriptDepsEx (some "A") none none scriptBodyNoProj
    stEmpty _ 1 geminiEx (by decide) (.error "provider down") 2000 (by decide)
    "A" none none (by decide) scriptBodyNoProj rfl rfl rfl rfl (by decide) rfl
    (Or.inl rfl)

/-- C9: the script cache key is computed from topic, persona, lengthMinutes
and language only — it mentions neither the authenticated user nor the
project — so two different authenticated users issuing requests with those
four fields equal and regenerate unset compute the same key, and a result
cached by the first user's successful request is served to the second user
with cached: true. -/
theorem C9_cache_key_ignores_user (sd1 : ScriptDeps) (us1 ue1 un1 : Option String)
    (p1 : ScriptBody) (st st1 : St) (pid1 : Nat) (r : GeminiResponse)
    (h1 : scriptPOST sd1 us1 ue1 un1 (some p1) st = (⟨200, .script pid1 false r⟩, st1))
    (prov2 : Except String GeminiResponse) (now2 : Nat)
    (hnow : now2 < sd1.now + scriptTTL)
    (sub2 : String) (ue2 un2 : Option String) (hs : (sub2 == "") = false)
    (hdiff : us1 ≠ some sub2)
    (p2 : ScriptBody)
    (hft : p2.topic = p1.topic) (hfp : p2.persona = p1.persona)
    (hfl : p2.lengthMinutes = p1.lengthMinutes) (hfg : p2.language = p1.language)
    (hT1 : (p1.topic == "") = false) (hR : p2.regenerate = false)
    (hP2 : p2.projectId = none) :
    ("script:" ++ sd1.hash (cacheBase p2)) = ("script:" ++ sd1.hash (cacheBase p1)) ∧
    ∃ (pid2 : Nat) (st2 : St),
      scriptPOST ⟨sd1.hash, prov2, now2⟩ (some sub2) ue2 un2 (some p2) st1
        = (⟨200, .script pid2 true r⟩, st2) ∧
      st2.jobs = st1.jobs ∧ st2.versions = st1.versions := by
  have hT2 : (p2.topic == "") = false := by rw [hft]; exact hT1
  have hkey : cacheBase p2 = cacheBase p1 := cacheBase_eq_of_fields p1 p2 hft hfp hfl hfg
  refine ⟨by rw [hkey], ?_⟩
  have hcache : cacheGet st1.cache ("script:" ++ sd1.hash (cacheBase p2)) now2 = some r := by
    rw [hkey]
    exact (scriptPOST_success_inv sd1 us1 ue1 un1 p1 st pid1 r st1 h1 now2 hnow).1
  obtain ⟨pid2, st2, hmain, hv, hj, -, -, -⟩ :=
    scriptPOST_cached_flow sd1.hash prov2 now2 st1 sub2 ue2 un2 hs p2 r
      hT2 hR hcache (Or.inl hP2)
  exact ⟨pid2, st2, hmain, hj, hv⟩

/-- Witness for C9: user "A" populates the cache from the empty state; the
different user "B" then receives the cached result. -/
theorem C9_cache_key_ignores_user_witness :
    ("script:" ++ scriptDepsEx.hash (cacheBase scriptBodyNoProj))
      = ("script:" ++ scriptDepsEx.hash (cacheBase scriptBodyNoProj)) ∧
    ∃ (pid2 : Nat) (st2 : St),
      scriptPOST ⟨scriptDepsEx.hash, .error "provider down", 2000⟩ (some "B")
        none none (some scriptBodyNoProj)
        ((scriptPOST scriptDepsEx (some "A") none none (some scriptBodyNoProj)
          stEmpty).2)
        = (⟨200, .script pid2 true geminiEx⟩, st2) ∧
      st2.jobs = ((scriptPOST scriptDepsEx (some "A") none none
        (some scriptBodyNoProj) stEmpty).2).jobs ∧
      st2.versions = ((scriptPOST scriptDepsEx (some "A") none none
        (some scriptBodyNoProj) stEmpty).2).versions :=
  C9_cache_key_ignores_user scriptDepsEx (some "A") none none scriptBodyNoProj
    stEmpty _ 1 geminiEx (by decide) (.error "provider down") 2000 (by decide)
    "B" none none (by decide) (by decide) scriptBodyNoProj rfl rfl rfl rfl
    (by decide) rfl rfl

/-- C8 witness: the concrete empty state, subject "S", topic-only body, and
the sample provider response. -/
theorem C8_fresh_user_script_success_witness :
    ∃ (u : UserRow) (proj : ProjectRow) (ver : VersionRow) (job : JobRow) (st' : St),
      scriptPOST scriptDepsEx (some "S") none none (some scriptBodyNoProj) stEmpty
        = (⟨200, .script proj.id false geminiEx⟩, st') ∧
      u.access_sub = "S" ∧ st'.users = stEmpty.users ++ [u] ∧
      proj.status = "draft" ∧ proj.user_id = u.id ∧
      st'.projects = stEmpty.projects ++
        [⟨proj.id, proj.user_id, some geminiEx.seo.title, some scriptBodyNoProj.topic,
          proj.target_length, "ready"⟩] ∧
      ver.project_id = proj.id ∧ ver.version = 1 ∧
      st'.versions = stEmpty.versions ++ [ver] ∧
      job.project_id = proj.id ∧ job.job_type = "script" ∧ job.status = "running" ∧
      st'.jobs = stEmpty.jobs ++
        [⟨job.id, job.project_id, job.job_type, "succeeded", none⟩] ∧
      st'.assets = stEmpty.assets ∧ st'.bucket = stEmpty.bucket ∧
      st'.cache = cachePut stEmpty.cache
        ("script:" ++ scriptDepsEx.hash (cacheBase scriptBodyNoProj)) geminiEx
        scriptDepsEx.now scriptTTL :=
  C8_fresh_user_script_success stEmpty "S" none none scriptDepsEx scriptBodyNoProj
    geminiEx (by decide) rfl (by decide) rfl rfl rfl rfl (by decide)

/-- C5: a TTS request with three sections whose second has empty text, where
the first section synthesizes and stores successfully, ends with the
GenerationJob in status 'failed' carrying the non-empty error "Section text
is required", exactly one new Asset row (the first section's), the stored
bucket object kept (no rollback), and an HTTP 500 response. -/
theorem C5_tts_partial_failure (st : St) (sub : String) (e n : Option String)
    (td : TtsDeps) (pid : Nat) (proj : ProjectRow)
    (s1 s2 s3 : SectionInput) (t1 : TtsResult)
    (hs : (sub == "") = false)
    (hgp : getProjectById st pid = some proj)
    (ho : proj.user_id = (ensureUser st sub e n).1.id)
    (h1t : (s1.text == "") = false) (h2t : s2.text = "")
    (hsynth : td.synth s1.text = .ok t1)
    (hF : st.fresh) :
    ∃ (job : JobRow) (asset : AssetRow) (st' : St),
      ttsPOST td (some sub) e n (some ⟨some pid, [s1, s2, s3]⟩) st
        = (⟨500, .error "Failed to generate audio"⟩, st') ∧
      job.project_id = proj.id ∧ job.job_type = "tts" ∧ job.status = "failed" ∧
      job.error = some "Section text is required" ∧ job.error ≠ some "" ∧
      job.error ≠ none ∧
      st'.jobs = st.jobs ++ [job] ∧
      asset.project_id = proj.id ∧ asset.type = "audio" ∧
      asset.label = some (ttsLabel s1) ∧
      st'.assets = st.assets ++ [asset] ∧
      st'.bucket = (ensureUser st sub e n).2.bucket ++
        [(asset.r2_key, t1.audioLength)] ∧
      st'.versions = st.versions ∧ st'.cache = st.cache := by
  have hs' : ¬ sub = "" := by simpa using hs
  rcases hEU : ensureUser st sub e n with ⟨user, stA⟩
  have hEUs : (ensureUser st sub e n).2 = stA := by rw [hEU]
  have hgpA : getProjectById stA pid = some proj := by
    have h := getProjectById_ensureUser st sub e n pid
    rw [hEUs] at h; exact h.trans hgp
  have ho2 : (proj.user_id != user.id) = false := by
    rw [hEU] at ho; simp [ho]
  have hjA : stA.jobs = st.jobs := by rw [← hEUs]; exact ensureUser_jobs st sub e n
  have haA : stA.assets = st.assets := by rw [← hEUs]; exact ensureUser_assets st sub e n
  have hvA : stA.versions = st.versions := by
    rw [← hEUs]; exact ensureUser_versions st sub e n
  have hcA : stA.cache = st.cache := by rw [← hEUs]; exact ensureUser_cache st sub e n
  have hnA : st.nextId ≤ stA.nextId := by
    rw [← hEUs]; exact ensureUser_nextId_le st sub e n
  obtain ⟨-, -, -, -, hFj⟩ := hF
  have hmapJ : stA.jobs.map (fun j =>
      if j.id == stA.nextId then
        { j with status := "failed", error := some "Section text is required" }
      else j) = stA.jobs := by
    rw [hjA]
    exact map_update_id_eq_of_lt st.jobs stA.nextId _
      (fun j hj => lt_of_lt_of_le (hFj j hj).1 hnA)
  have hloop : ttsSections td proj.id [s1, s2, s3]
      { stA with
          jobs := stA.jobs ++ [⟨stA.nextId, proj.id, "tts", "running", none⟩],
          nextId := stA.nextId + 1 } [] =
      ({ stA with
          jobs := stA.jobs ++ [⟨stA.nextId, proj.id, "tts", "running", none⟩],
          assets := stA.assets ++
            [⟨stA.nextId + 2, proj.id, "audio", some (ttsLabel s1),
              "audio/" ++ toString proj.id ++ "/" ++ toString (stA.nextId + 1)
                ++ ".mp3",
              some t1.mimeType, some t1.audioLength⟩],
          bucket := stA.bucket ++
            [("audio/" ++ toString proj.id ++ "/" ++ toString (stA.nextId + 1)
                ++ ".mp3", t1.audioLength)],
          nextId := stA.nextId + 3 },
       .error "Section text is required") := by
    simp [ttsSections, h1t, hsynth, h2t, freshId, bucketPut, insertAsset]
  refine ⟨⟨stA.nextId, proj.id, "tts", "failed", some "Section text is required"⟩,
    ⟨stA.nextId + 2, proj.id, "audio", some (ttsLabel s1),
      "audio/" ++ toString proj.id ++ "/" ++ toString (stA.nextId + 1) ++ ".mp3",
      some t1.mimeType, some t1.audioLength⟩,
    { stA with
        jobs := stA.jobs ++
          [⟨stA.nextId, proj.id, "tts", "failed", some "Section text is required"⟩],
        assets := stA.assets ++
          [⟨stA.nextId + 2, proj.id, "audio", some (ttsLabel s1),
            "audio/" ++ toString proj.id ++ "/" ++ toString (stA.nextId + 1)
              ++ ".mp3",
            some t1.mimeType, some t1.audioLength⟩],
        bucket := stA.bucket ++
          [("audio/" ++ toString proj.id ++ "/" ++ toString (stA.nextId + 1)
              ++ ".mp3", t1.audioLength)],
        nextId := stA.nextId + 3 },
    ?_, rfl, rfl, rfl, rfl, by simp, by simp, ?_, rfl, rfl, rfl, ?_, ?_, hvA, hcA⟩
  · have ho3 : proj.user_id = user.id := by rw [hEU] at ho; exact ho
    have hmapJ2 := hmapJ
    simp only [beq_iff_eq] at hmapJ2
    simp [ttsPOST, truthy, hs, hs', hEU, hgpA, ho3, insertGenerationJob, hloop,
      updateGenerationJobStatus, List.map_append, hmapJ, hmapJ2]
  · show stA.jobs ++ _ = st.jobs ++ _
    rw [hjA]
  · show stA.assets ++ _ = st.assets ++ _
    rw [haA]
  · rfl

/-- Witness for C5 at the concrete state `stEx`, caller "A", project 1,
three sections with the second empty. -/
theorem C5_tts_partial_failure_witness :
    ∃ (job : JobRow) (asset : AssetRow) (st' : St),
      ttsPOST ttsDepsEx (some "A") none none
        (some ⟨some 1, ttsSectionsEx⟩) stEx
        = (⟨500, .error "Failed to generate audio"⟩, st') ∧
      job.project_id = projEx.id ∧ job.job_type = "tts" ∧ job.status = "failed" ∧
      job.error = some "Section text is required" ∧ job.error ≠ some "" ∧
      job.error ≠ none ∧
      st'.jobs = stEx.jobs ++ [job] ∧
      asset.project_id = projEx.id ∧ asset.type = "audio" ∧
      asset.label = some (ttsLabel ⟨none, some "Intro", "good"⟩) ∧
      st'.assets = stEx.assets ++ [asset] ∧
      st'.bucket = (ensureUser stEx "A" none none).2.bucket ++
        [(asset.r2_key, (10 : Nat))] ∧
      st'.versions = stEx.versions ∧ st'.cache = stEx.cache := by
  have h := C5_tts_partial_failure stEx "A" none none ttsDepsEx 1 projEx
    ⟨none, some "Intro", "good"⟩ ⟨none, none, ""⟩ ⟨none, none, "x"⟩
    ⟨10, "audio/mpeg"⟩ (by decide) (by decide) (by decide) (by decide) rfl rfl
    (by decide)
  exact h

theorem jsTrim_of_all_ws (token : String) (h : token.toList.all jsWs) :
    jsTrim token = "" := by
  unfold jsTrim
  have hd : token.toList.dropWhile jsWs = [] := by
    rw [List.dropWhile_eq_nil_iff]
    intro x hx
    exact List.all_eq_true.mp h x hx
  rw [hd]
  rfl

/-- C6: `verifyAccessToken` (1) answers `unauthorized` for the empty or
whitespace-only token, distinct from `error`; (2) turns every failure —
missing configuration or a jwtVerify rejection (expired, bad signature,
algorithm mismatch, key-fetch failure) — into the `error` result carrying
the cause, never an exception (the embedding is a total function whose value
is always one of the three constructors); and (3), given jose's contract
that a verified token's audience claims contain the expected audience, never
answers `success` for a token whose audience claim is wrong or missing. -/
theorem C6_verify_access_token (env : EnvCfg)
    (jv : String → Option (List String) → String → Except String JwtVerifyOk)
    (hjv : ∀ t algs aud out, jv t algs aud = .ok out → aud ∈ out.payload.aud) :
    (∀ token, jsTrim token = "" → verifyAccessToken env jv token = .unauthorized) ∧
    (∀ token, token.toList.all jsWs →
        verifyAccessToken env jv token = .unauthorized) ∧
    (AccessVerificationResult.unauthorized ≠ .error "" ∧
      ∀ e, AccessVerificationResult.unauthorized ≠ .error e) ∧
    (∀ token e, jsTrim token ≠ "" → resolveAccessConfig env = .error e →
        verifyAccessToken env jv token = .error e) ∧
    (∀ token cfg e, jsTrim token ≠ "" → resolveAccessConfig env = .ok cfg →
        jv (jsTrim token) (algListOf cfg) cfg.audience = .error e →
        verifyAccessToken env jv token = .error e) ∧
    (∀ token, (∃ i, verifyAccessToken env jv token = .success i) ∨
        (∃ e, verifyAccessToken env jv token = .error e) ∨
        verifyAccessToken env jv token = .unauthorized) ∧
    (∀ token ident, verifyAccessToken env jv token = .success ident →
        ∃ cfg out, resolveAccessConfig env = .ok cfg ∧
          jv (jsTrim token) (algListOf cfg) cfg.audience = .ok out ∧
          cfg.audience ∈ out.payload.aud) := by
  refine ⟨?_, ?_, ⟨by simp, by simp⟩, ?_, ?_, ?_, ?_⟩
  · intro token h
    simp [verifyAccessToken, h]
  · intro token h
    simp [verifyAccessToken, jsTrim_of_all_ws token h]
  · intro token e hne hcfg
    simp [verifyAccessToken, hne, hcfg]
  · intro token cfg e hne hcfg hjverr
    simp [verifyAccessToken, hne, hcfg, hjverr]
  · intro token
    rcases h : verifyAccessToken env jv token with i | e | _
    · exact Or.inl ⟨i, rfl⟩
    · exact Or.inr (Or.inl ⟨e, rfl⟩)
    · exact Or.inr (Or.inr rfl)
  · intro token ident h
    unfold verifyAccessToken at h
    by_cases hne : jsTrim token = ""
    · rw [if_pos hne] at h; simp at h
    · rw [if_neg hne] at h
      rcases hcfg : resolveAccessConfig env with e | cfg <;> rw [hcfg] at h <;>
        simp only [] at h
      · simp at h
      · rcases hjvr : jv (jsTrim token) (algListOf cfg) cfg.audience with e | out <;>
          rw [hjvr] at h <;> simp only [] at h
        · simp at h
        · exact ⟨cfg, out, rfl, hjvr, hjv _ _ _ _ hjvr⟩

/-- Witness for C6: a whitespace-only token is `unauthorized`; a rejected
token is `error` with the cause. -/
theorem C6_verify_access_token_witness :
    verifyAccessToken envEx jvEx " \t " = .unauthorized ∧
    verifyAccessToken envEx jvEx "bad" = .error "bad signature" := by
  have hjv : ∀ t algs aud out, jvEx t algs aud = .ok out → aud ∈ out.payload.aud := by
    intro t algs aud out h
    unfold jvEx at h
    by_cases ht : t = "tok"
    · rw [if_pos ht] at h
      cases h
      simp
    · rw [if_neg ht] at h; cases h
  have H := C6_verify_access_token envEx jvEx hjv
  refine ⟨H.1 " \t " (by decide), ?_⟩
  exact H.2.2.2.2.1 "bad"
    ⟨"aud1", "https://x/cdn-cgi/access/certs",
      loginFromCerts "https://x/cdn-cgi/access/certs", none⟩
    "bad signature" (by decide) rfl rfl

/-! ### Base64url lemmas -/

theorem b64ValOf_b64CharOf : ∀ v, v < 64 → b64ValOf (b64CharOf v) = some v := by
  decide

theorem b64CharOf_facts : ∀ v, v < 64 →
    b64CharOf v ≠ 46 ∧ b64CharOf v ≠ 61 ∧ isB64Ws (b64CharOf v) = false := by
  decide

/-- Characters emitted by the encoder are alphabet characters. -/
theorem b64uEncode_mem (bs : List Nat) (hb : ∀ b ∈ bs, b < 256) :
    ∀ c ∈ b64uEncode bs, ∃ v, v < 64 ∧ c = b64CharOf v := by
  induction bs using b64uEncode.induct with
  | case1 => intro c hc; cases hc
  | case2 b1 =>
    intro c hc
    have h1 : b1 < 256 := hb b1 (by simp)
    simp only [b64uEncode, List.mem_cons, List.mem_singleton] at hc
    rcases hc with rfl | rfl | h
    · exact ⟨b1 / 4, by omega, rfl⟩
    · exact ⟨b1 % 4 * 16, by omega, rfl⟩
    · cases h
  | case3 b1 b2 =>
    intro c hc
    have h1 : b1 < 256 := hb b1 (by simp)
    have h2 : b2 < 256 := hb b2 (by simp)
    simp only [b64uEncode, List.mem_cons, List.mem_singleton] at hc
    rcases hc with rfl | rfl | rfl | h
    · exact ⟨b1 / 4, by omega, rfl⟩
    · exact ⟨b1 % 4 * 16 + b2 / 16, by omega, rfl⟩
    · exact ⟨b2 % 16 * 4, by omega, rfl⟩
    · cases h
  | case4 b1 b2 b3 rest ih =>
    intro c hc
    have h1 : b1 < 256 := hb b1 (by simp)
    have h2 : b2 < 256 := hb b2 (by simp)
    have h3 : b3 < 256 := hb b3 (by simp)
    simp only [b64uEncode, List.mem_cons] at hc
    rcases hc with rfl | rfl | rfl | rfl | h
    · exact ⟨b1 / 4, by omega, rfl⟩
    · exact ⟨b1 % 4 * 16 + b2 / 16, by omega, rfl⟩
    · exact ⟨b2 % 16 * 4 + b3 / 64, by omega, rfl⟩
    · exact ⟨b3 % 64, by omega, rfl⟩
    · exact ih (fun b hbm => hb b (by simp [hbm])) c h

/-- The encoder's output length is never ≡ 1 (mod 4). -/
theorem b64uEncode_len_mod (bs : List Nat) : (b64uEncode bs).length % 4 ≠ 1 := by
  induction bs using b64uEncode.induct with
  | case1 => simp [b64uEncode]
  | case2 b1 => simp [b64uEncode]
  | case3 b1 b2 => simp [b64uEncode]
  | case4 b1 b2 b3 rest ih =>
    simp only [b64uEncode, List.length_cons]
    omega

/-- Group decode inverts the encoder. -/
theorem decodeGroups_b64uEncode (bs : List Nat) (hb : ∀ b ∈ bs, b < 256) :
    decodeGroups (b64uEncode bs) = some bs := by
  induction bs using b64uEncode.induct with
  | case1 => rfl
  | case2 b1 =>
    have h1 : b1 < 256 := hb b1 (by simp)
    simp only [b64uEncode, decodeGroups,
      b64ValOf_b64CharOf (b1 / 4) (by omega),
      b64ValOf_b64CharOf (b1 % 4 * 16) (by omega)]
    congr 1
    have : b1 / 4 * 4 + b1 % 4 * 16 / 16 = b1 := by omega
    rw [this]
  | case3 b1 b2 =>
    have h1 : b1 < 256 := hb b1 (by simp)
    have h2 : b2 < 256 := hb b2 (by simp)
    simp only [b64uEncode, decodeGroups,
      b64ValOf_b64CharOf (b1 / 4) (by omega),
      b64ValOf_b64CharOf (b1 % 4 * 16 + b2 / 16) (by omega),
      b64ValOf_b64CharOf (b2 % 16 * 4) (by omega)]
    congr 1
    have e1 : b1 / 4 * 4 + (b1 % 4 * 16 + b2 / 16) / 16 = b1 := by omega
    have e2 : (b1 % 4 * 16 + b2 / 16) % 16 * 16 + b2 % 16 * 4 / 4 = b2 := by omega
    rw [e1, e2]
  | case4 b1 b2 b3 rest ih =>
    have h1 : b1 < 256 := hb b1 (by simp)
    have h2 : b2 < 256 := hb b2 (by simp)
    have h3 : b3 < 256 := hb b3 (by simp)
    have hrest := ih (fun b hbm => hb b (by simp [hbm]))
    simp only [b64uEncode, decodeGroups,
      b64ValOf_b64CharOf (b1 / 4) (by omega),
      b64ValOf_b64CharOf (b1 % 4 * 16 + b2 / 16) (by omega),
      b64ValOf_b64CharOf (b2 % 16 * 4 + b3 / 64) (by omega),
      b64ValOf_b64CharOf (b3 % 64) (by omega), hrest]
    congr 1
    have e1 : b1 / 4 * 4 + (b1 % 4 * 16 + b2 / 16) / 16 = b1 := by omega
    have e2 : (b1 % 4 * 16 + b2 / 16) % 16 * 16 + (b2 % 16 * 4 + b3 / 64) / 4 = b2 := by
      omega
    have e3 : (b2 % 16 * 4 + b3 / 64) % 4 * 64 + b3 % 64 = b3 := by omega
    rw [e1, e2, e3]

theorem stripPadRev_cons_ne (c : Nat) (t : List Nat) (hc : c ≠ 61) :
    stripPadRev (c :: t) = c :: t := by
  rcases t with _ | ⟨c2, rest⟩
  · simp [stripPadRev, hc]
  · simp [stripPadRev, hc]

theorem stripPadRev_6161 (t : List Nat) : stripPadRev (61 :: 61 :: t) = t := by
  simp [stripPadRev]

theorem stripPadRev_61_ne (t : List Nat) (h : ∀ c ∈ t, c ≠ 61) :
    stripPadRev (61 :: t) = t := by
  rcases t with _ | ⟨c2, rest⟩
  · simp [stripPadRev]
  · have hc2 : c2 ≠ 61 := h c2 (by simp)
    simp [stripPadRev, hc2]

theorem stripPad_no61 (s : List Nat) (h : ∀ c ∈ s, c ≠ 61) : stripPad s = s := by
  unfold stripPad
  rcases hrev : s.reverse with _ | ⟨c, rest⟩
  · have hs : s = [] := by
      have := congrArg List.reverse hrev
      simpa using this
    subst hs; rfl
  · have hc : c ≠ 61 := h c (by rw [← List.mem_reverse, hrev]; simp)
    rw [stripPadRev_cons_ne c rest hc, ← hrev, List.reverse_reverse]

theorem stripPad_two (s : List Nat) : stripPad (s ++ [61, 61]) = s := by
  unfold stripPad
  have hrw : (s ++ [61, 61]).reverse = 61 :: 61 :: s.reverse := by simp
  rw [hrw, stripPadRev_6161, List.reverse_reverse]

theorem stripPad_one (s : List Nat) (h : ∀ c ∈ s, c ≠ 61) :
    stripPad (s ++ [61]) = s := by
  unfold stripPad
  have hrw : (s ++ [61]).reverse = 61 :: s.reverse := by simp
  rw [hrw, stripPadRev_61_ne s.reverse
    (fun c hcm => h c (List.mem_reverse.mp hcm)), List.reverse_reverse]

/-- `base64UrlDecode` inverts `base64UrlEncode` on byte inputs. -/
theorem b64uDecode_b64uEncode (bs : List Nat) (hb : ∀ b ∈ bs, b < 256) :
    b64uDecode (b64uEncode bs) = some bs := by
  have hmem := b64uEncode_mem bs hb
  have hno61 : ∀ c ∈ b64uEncode bs, c ≠ 61 := by
    intro c hc
    obtain ⟨v, hv, rfl⟩ := hmem c hc
    exact (b64CharOf_facts v hv).2.1
  have hnows : ∀ c ∈ b64uEncode bs, isB64Ws c = false := by
    intro c hc
    obtain ⟨v, hv, rfl⟩ := hmem c hc
    exact (b64CharOf_facts v hv).2.2
  have hmod := b64uEncode_len_mod bs
  have hlt : (b64uEncode bs).length % 4 < 4 := Nat.mod_lt _ (by omega)
  unfold b64uDecode
  have hfil : ∀ (pad : List Nat), (∀ c ∈ pad, c = 61) →
      (b64uEncode bs ++ pad).filter (fun c => !isB64Ws c) = b64uEncode bs ++ pad := by
    intro pad hpad
    rw [List.filter_eq_self]
    intro c hc
    rcases List.mem_append.mp hc with hc | hc
    · rw [hnows c hc]; rfl
    · rw [hpad c hc]; rfl
  have h4 : (b64uEncode bs).length % 4 = 0 ∨ (b64uEncode bs).length % 4 = 2 ∨
      (b64uEncode bs).length % 4 = 3 := by omega
  rcases h4 with hm4 | hm4 | hm4
  · have hpad0 : (4 - (b64uEncode bs).length % 4) % 4 = 0 := by omega
    rw [hpad0, show List.replicate 0 (61 : Nat) = [] from rfl]
    rw [hfil [] (by intro c hc; cases hc)]
    simp only [List.append_nil, hm4, if_true]
    rw [stripPad_no61 _ hno61, if_neg (by omega)]
    exact decodeGroups_b64uEncode bs hb
  · have hpad2 : (4 - (b64uEncode bs).length % 4) % 4 = 2 := by omega
    rw [hpad2, show List.replicate 2 (61 : Nat) = [61, 61] from rfl]
    rw [hfil [61, 61] (by intro c hc; simp at hc; omega)]
    have hlen : ((b64uEncode bs) ++ [61, 61]).length % 4 = 0 := by
      simp only [List.length_append, List.length_cons, List.length_nil]
      omega
    simp only []
    rw [if_pos hlen, stripPad_two, if_neg (by omega)]
    exact decodeGroups_b64uEncode bs hb
  · have hpad1 : (4 - (b64uEncode bs).length % 4) % 4 = 1 := by omega
    rw [hpad1, show List.replicate 1 (61 : Nat) = [61] from rfl]
    rw [hfil [61] (by intro c hc; simp at hc; omega)]
    have hlen : ((b64uEncode bs) ++ [61]).length % 4 = 0 := by
      simp only [List.length_append, List.length_cons, List.length_nil]
      omega
    simp only []
    rw [if_pos hlen, stripPad_one _ hno61, if_neg (by omega)]
    exact decodeGroups_b64uEncode bs hb

/-! ### Split and JSON lemmas -/

theorem jsSplit_ne_nil (sep : Nat) (s : List Nat) : jsSplit sep s ≠ [] := by
  induction s with
  | nil => simp [jsSplit]
  | cons c rest ih =>
    unfold jsSplit
    by_cases hc : c = sep
    · simp [hc]
    · rw [if_neg hc]
      rcases h : jsSplit sep rest with _ | ⟨hd, tl⟩
      · simp
      · simp

theorem jsSplit_not_mem (sep : Nat) (s : List Nat) (h : sep ∉ s) :
    jsSplit sep s = [s] := by
  induction s with
  | nil => rfl
  | cons c rest ih =>
    unfold jsSplit
    have hc : ¬ c = sep := fun hv => h (by rw [hv]; simp)
    rw [if_neg hc, ih (fun hm => h (by simp [hm]))]

theorem jsSplit_append (sep : Nat) (A B : List Nat) (h : sep ∉ A) :
    jsSplit sep (A ++ sep :: B) = A :: jsSplit sep B := by
  induction A with
  | nil => simp [jsSplit]
  | cons c rest ih =>
    have hc : ¬ c = sep := fun hv => h (by rw [hv]; simp)
    have ih2 := ih (fun hm => h (by simp [hm]))
    simp only [List.cons_append, jsSplit, if_neg hc]
    rw [show rest.append (sep :: B) = rest ++ sep :: B from rfl, ih2]

theorem natDigitsAux_eq (n : Nat) (acc : List Nat) :
    natDigitsAux n acc = natDigits n ++ acc := by
  induction n using Nat.strong_induction_on generalizing acc with
  | _ n ih =>
    unfold natDigits natDigitsAux
    by_cases h : n < 10
    · simp [h]
    · rw [if_neg h, if_neg h]
      rw [ih (n / 10) (Nat.div_lt_self (by omega) (by omega)) ((48 + n % 10) :: acc),
          ih (n / 10) (Nat.div_lt_self (by omega) (by omega)) [48 + n % 10]]
      simp

theorem natDigits_digits (n : Nat) : ∀ c ∈ natDigits n, 48 ≤ c ∧ c ≤ 57 := by
  induction n using Nat.strong_induction_on with
  | _ n ih =>
    intro c hc
    unfold natDigits natDigitsAux at hc
    by_cases h : n < 10
    · rw [if_pos h] at hc
      simp at hc
      omega
    · rw [if_neg h, natDigitsAux_eq] at hc
      rcases List.mem_append.mp hc with hc | hc
      · exact ih (n / 10) (Nat.div_lt_self (by omega) (by omega)) c hc
      · simp at hc
        omega

theorem natDigits_ne_nil (n : Nat) : natDigits n ≠ [] := by
  unfold natDigits natDigitsAux
  by_cases h : n < 10
  · simp [h]
  · rw [if_neg h, natDigitsAux_eq]
    simp

theorem digitsToNat_append_one (xs : List Nat) (d : Nat) :
    digitsToNat (xs ++ [d]) = digitsToNat xs * 10 + (d - 48) := by
  unfold digitsToNat
  rw [List.foldl_append]
  rfl

theorem digitsToNat_natDigits (n : Nat) : digitsToNat (natDigits n) = n := by
  induction n using Nat.strong_induction_on with
  | _ n ih =>
    by_cases h : n < 10
    · unfold natDigits natDigitsAux
      rw [if_pos h]
      unfold digitsToNat
      simp only [List.foldl]
      omega
    · have hstep : natDigits n = natDigits (n / 10) ++ [48 + n % 10] := by
        conv_lhs => rw [natDigits, natDigitsAux]
        rw [if_neg h, natDigitsAux_eq]
      rw [hstep, digitsToNat_append_one,
        ih (n / 10) (Nat.div_lt_self (by omega) (by omega))]
      omega

theorem takeDigits_append (ds : List Nat) (rest : List Nat)
    (hd : ∀ c ∈ ds, 48 ≤ c ∧ c ≤ 57)
    (hrest : rest = [] ∨ ∃ c r, rest = c :: r ∧ ¬ (48 ≤ c ∧ c ≤ 57)) :
    takeDigits (ds ++ rest) = (ds, rest) := by
  induction ds with
  | nil =>
    rcases hrest with rfl | ⟨c, r, rfl, hc⟩
    · rfl
    · simp only [List.nil_append]
      unfold takeDigits
      rw [if_neg hc]
  | cons c cs ih =>
    have hc := hd c (by simp)
    have ih2 := ih (fun x hx => hd x (by simp [hx]))
    simp [List.cons_append, takeDigits, hc, ih2]

theorem dropExact_append (k r : List Nat) : dropExact k (k ++ r) = some r := by
  induction k with
  | nil => rfl
  | cons c cs ih =>
    simp [dropExact, ih]

theorem takeUntilQuote_append (s r : List Nat) (h : (34 : Nat) ∉ s) :
    takeUntilQuote (s ++ 34 :: r) = some (s, r) := by
  induction s with
  | nil => simp [takeUntilQuote]
  | cons c cs ih =>
    have hc : ¬ c = 34 := fun hv => h (by rw [hv]; simp)
    have ih2 := ih (fun hm => h (by simp [hm]))
    simp [takeUntilQuote, hc, ih2]

theorem takeDigits_brace (ds : List Nat) (hd : ∀ c ∈ ds, 48 ≤ c ∧ c ≤ 57) :
    takeDigits (ds ++ [125]) = (ds, [125]) :=
  takeDigits_append ds [125] hd (Or.inr ⟨125, [], rfl, by omega⟩)

theorem dropExact_email_name (r : List Nat) :
    dropExact emailKey (nameKey ++ r) = none := rfl

theorem dropExact_email_issued (r : List Nat) :
    dropExact emailKey (issuedAtKey ++ r) = none := rfl

theorem dropExact_name_issued (r : List Nat) :
    dropExact nameKey (issuedAtKey ++ r) = none := rfl

theorem not_mem_34_of_wf (bs : List Nat) (h : wellFormedStr bs) : (34 : Nat) ∉ bs := by
  intro hm
  have := h 34 hm
  simp [goodByte] at this

/-- JSON.parse inverts JSON.stringify on well-formed session payloads. -/
theorem jsonParse_jsonStringify (p : SessionPayload)
    (hsub : wellFormedStr p.sub)
    (hem : ∀ e, p.email = some e → wellFormedStr e)
    (hnm : ∀ nm, p.name = some nm → wellFormedStr nm) :
    jsonParsePayload (jsonStringifyPayload p) = some p := by
  obtain ⟨sub, email, name, iat⟩ := p
  have h34s : (34 : Nat) ∉ sub := not_mem_34_of_wf sub hsub
  have hne := natDigits_ne_nil iat
  have htd := takeDigits_brace (natDigits iat) (natDigits_digits iat)
  have hval := digitsToNat_natDigits iat
  rcases email with _ | e <;> rcases name with _ | nm
  · simp [jsonStringifyPayload, jsonParsePayload, parseOptStrField,
      List.append_assoc, dropExact_append, takeUntilQuote_append, h34s,
      dropExact_email_issued, dropExact_name_issued, htd, hne, hval]
  · have h34n : (34 : Nat) ∉ nm := not_mem_34_of_wf nm (hnm nm rfl)
    simp [jsonStringifyPayload, jsonParsePayload, parseOptStrField,
      List.append_assoc, dropExact_append, takeUntilQuote_append, h34s, h34n,
      dropExact_email_name, dropExact_name_issued, htd, hne, hval]
  · have h34e : (34 : Nat) ∉ e := not_mem_34_of_wf e (hem e rfl)
    simp [jsonStringifyPayload, jsonParsePayload, parseOptStrField,
      List.append_assoc, dropExact_append, takeUntilQuote_append, h34s, h34e,
      dropExact_email_issued, dropExact_name_issued, htd, hne, hval]
  · have h34e : (34 : Nat) ∉ e := not_mem_34_of_wf e (hem e rfl)
    have h34n : (34 : Nat) ∉ nm := not_mem_34_of_wf nm (hnm nm rfl)
    simp [jsonStringifyPayload, jsonParsePayload, parseOptStrField,
      List.append_assoc, dropExact_append, takeUntilQuote_append, h34s, h34e,
      h34n, dropExact_email_name, dropExact_name_issued, htd, hne, hval]

/-- The encoder never emits '.' (46). -/
theorem b64uEncode_not_dot (bs : List Nat) (hb : ∀ b ∈ bs, b < 256) :
    (46 : Nat) ∉ b64uEncode bs := by
  intro hm
  obtain ⟨v, hv, hc⟩ := b64uEncode_mem bs hb 46 hm
  exact (b64CharOf_facts v hv).1 hc.symm

/-- The encoder output of a nonempty byte list is nonempty. -/
theorem b64uEncode_ne_nil (bs : List Nat) (h : bs ≠ []) : b64uEncode bs ≠ [] := by
  match bs with
  | [] => exact absurd rfl h
  | [b1] => simp [b64uEncode]
  | [b1, b2] => simp [b64uEncode]
  | b1 :: b2 :: b3 :: rest => simp [b64uEncode]

/-- Helper: byte bounds distribute over append. -/
theorem lt256_append {A B : List Nat} (hA : ∀ b ∈ A, b < 256)
    (hB : ∀ b ∈ B, b < 256) : ∀ b ∈ A ++ B, b < 256 := by
  intro b hb
  rcases List.mem_append.1 hb with h | h
  · exact hA b h
  · exact hB b h

/-- The serialized payload of a well-formed identity is ASCII bytes. -/
theorem payloadData_lt256 (identity : SessionIdentity) (now : Nat)
    (hwf : wellFormedIdentity identity) :
    ∀ b ∈ payloadData identity now, b < 256 := by
  obtain ⟨hsub, hem, hnm⟩ := hwf
  obtain ⟨sub, email, name⟩ := identity
  have hk1 : ∀ b ∈ subKey, b < 256 := by decide
  have hk2 : ∀ b ∈ emailKey, b < 256 := by decide
  have hk3 : ∀ b ∈ nameKey, b < 256 := by decide
  have hk4 : ∀ b ∈ issuedAtKey, b < 256 := by decide
  have hq : ∀ b ∈ ([34] : List Nat), b < 256 := by decide
  have hbr : ∀ b ∈ ([125] : List Nat), b < 256 := by decide
  have hnil : ∀ b ∈ ([] : List Nat), b < 256 := by intro b hb; cases hb
  have hdig : ∀ b ∈ natDigits now, b < 256 := by
    intro b hb; have := natDigits_digits now b hb; omega
  have hgood : ∀ (s : List Nat), wellFormedStr s → ∀ b ∈ s, b < 256 := by
    intro s hs b hb; have := hs b hb; simp [goodByte] at this; omega
  have hsub' : ∀ b ∈ sub, b < 256 := hgood sub hsub
  rcases email with _ | e <;> rcases name with _ | nm
  · exact lt256_append (lt256_append (lt256_append (lt256_append (lt256_append
      (lt256_append (lt256_append hk1 hsub') hq) hnil) hnil) hk4) hdig) hbr
  · have hnm' : ∀ b ∈ nm, b < 256 := hgood nm (hnm nm rfl)
    exact lt256_append (lt256_append (lt256_append (lt256_append (lt256_append
      (lt256_append (lt256_append hk1 hsub') hq) hnil)
      (lt256_append (lt256_append hk3 hnm') hq)) hk4) hdig) hbr
  · have hem' : ∀ b ∈ e, b < 256 := hgood e (hem e rfl)
    exact lt256_append (lt256_append (lt256_append (lt256_append (lt256_append
      (lt256_append (lt256_append hk1 hsub') hq)
      (lt256_append (lt256_append hk2 hem') hq)) hnil) hk4) hdig) hbr
  · have hem' : ∀ b ∈ e, b < 256 := hgood e (hem e rfl)
    have hnm' : ∀ b ∈ nm, b < 256 := hgood nm (hnm nm rfl)
    exact lt256_append (lt256_append (lt256_append (lt256_append (lt256_append
      (lt256_append (lt256_append hk1 hsub') hq)
      (lt256_append (lt256_append hk2 hem') hq))
      (lt256_append (lt256_append hk3 hnm') hq)) hk4) hdig) hbr

/-- The serialized payload is never empty. -/
theorem payloadData_ne_nil (identity : SessionIdentity) (now : Nat) :
    payloadData identity now ≠ [] := by
  intro h
  simp [payloadData, jsonStringifyPayload, subKey] at h

/-- `hmInjEx data0` is injective at `data0`. -/
theorem hmInjEx_inj (data0 : List Nat) :
    ∀ d, hmInjEx data0 d = hmInjEx data0 data0 → d = data0 := by
  intro d h
  by_cases hd : d = data0
  · exact hd
  · exfalso
    simp only [hmInjEx, if_neg hd, if_pos rfl] at h
    exact absurd h (by decide)

/-- Parsing a token of shape base64url(data) ++ "." ++ base64url(sig) with a
matching MAC yields the JSON parse of the data. -/
theorem parse_token_shape (hmacF : List Nat → List Nat) (data sig : List Nat)
    (hd : ∀ b ∈ data, b < 256) (hdne : data ≠ [])
    (hsb : ∀ b ∈ sig, b < 256) (hsne : sig ≠ [])
    (hver : hmacF data = sig) :
    parseSessionValue hmacF (b64uEncode data ++ 46 :: b64uEncode sig) =
      jsonParsePayload data := by
  have hEd : (46 : Nat) ∉ b64uEncode data := b64uEncode_not_dot data hd
  have hSd : (46 : Nat) ∉ b64uEncode sig := b64uEncode_not_dot sig hsb
  have hEne : b64uEncode data ≠ [] := b64uEncode_ne_nil data hdne
  have hSne : b64uEncode sig ≠ [] := b64uEncode_ne_nil sig hsne
  have htne : b64uEncode data ++ 46 :: b64uEncode sig ≠ [] := by
    intro h
    rcases List.append_eq_nil.1 h with ⟨-, h2⟩
    cases h2
  have hsplit : jsSplit 46 (b64uEncode data ++ 46 :: b64uEncode sig) =
      [b64uEncode data, b64uEncode sig] := by
    rw [jsSplit_append 46 _ _ hEd, jsSplit_not_mem 46 _ hSd]
  unfold parseSessionValue
  rw [if_neg htne, hsplit]
  simp only []
  rw [if_neg (by tauto : ¬ (b64uEncode data = [] ∨ b64uEncode sig = []))]
  rw [b64uDecode_b64uEncode data hd, b64uDecode_b64uEncode sig hsb]
  simp only []
  rw [if_pos hver]

/-- Flipping one bit of a well-formed token either fails to parse or parses
to the untampered payload, provided a payload-segment flip does not create a
new '.' character. -/
theorem parse_flip_token (hmacF : List Nat → List Nat) (data sig : List Nat)
    (hd : ∀ b ∈ data, b < 256) (hdne : data ≠ [])
    (hsb : ∀ b ∈ sig, b < 256) (hsne : sig ≠ [])
    (hver : hmacF data = sig)
    (hinj : ∀ d, hmacF d = hmacF data → d = data)
    (ci bi : Nat)
    (hno : ci < (b64uEncode data).length →
      Nat.xor ((b64uEncode data ++ 46 :: b64uEncode sig).getD ci 0) (2 ^ bi) ≠ 46) :
    parseSessionValue hmacF
        (flipBit (b64uEncode data ++ 46 :: b64uEncode sig) ci bi) = none ∨
      parseSessionValue hmacF
        (flipBit (b64uEncode data ++ 46 :: b64uEncode sig) ci bi) =
        jsonParsePayload data := by
  have hEd : (46 : Nat) ∉ b64uEncode data := b64uEncode_not_dot data hd
  have hSd : (46 : Nat) ∉ b64uEncode sig := b64uEncode_not_dot sig hsb
  have hEne : b64uEncode data ≠ [] := b64uEncode_ne_nil data hdne
  have hSne : b64uEncode sig ≠ [] := b64uEncode_ne_nil sig hsne
  rcases Nat.lt_trichotomy ci (b64uEncode data).length with hlt | heq | hgt
  · -- flip inside the payload segment
    have hc' := hno hlt
    have hset : flipBit (b64uEncode data ++ 46 :: b64uEncode sig) ci bi =
        (b64uEncode data).set ci
            (Nat.xor ((b64uEncode data ++ 46 :: b64uEncode sig).getD ci 0)
              (2 ^ bi)) ++
          46 :: b64uEncode sig := by
      unfold flipBit
      exact List.set_append_left ci _ hlt
    have hE'd : (46 : Nat) ∉ (b64uEncode data).set ci
        (Nat.xor ((b64uEncode data ++ 46 :: b64uEncode sig).getD ci 0)
          (2 ^ bi)) := by
      intro hm
      rcases List.mem_or_eq_of_mem_set hm with h | h
      · exact hEd h
      · exact hc' h.symm
    have hE'ne : (b64uEncode data).set ci
        (Nat.xor ((b64uEncode data ++ 46 :: b64uEncode sig).getD ci 0)
          (2 ^ bi)) ≠ [] := by
      intro h
      have hlen : (b64uEncode data).length = 0 := by
        have := congrArg List.length h
        simpa [List.length_set] using this
      exact hEne (List.length_eq_zero.mp hlen)
    rw [hset]
    unfold parseSessionValue
    rw [if_neg (by intro h; rcases List.append_eq_nil.1 h with ⟨-, h2⟩; cases h2),
      jsSplit_append 46 _ _ hE'd, jsSplit_not_mem 46 _ hSd]
    simp only []
    rw [if_neg (by tauto : ¬ ((b64uEncode data).set ci
        (Nat.xor ((b64uEncode data ++ 46 :: b64uEncode sig).getD ci 0)
          (2 ^ bi)) = [] ∨ b64uEncode sig = []))]
    rw [b64uDecode_b64uEncode sig hsb]
    rcases hdec : b64uDecode ((b64uEncode data).set ci
        (Nat.xor ((b64uEncode data ++ 46 :: b64uEncode sig).getD ci 0)
          (2 ^ bi))) with _ | d'
    · left; rfl
    · simp only []
      by_cases hdd : d' = data
      · subst hdd
        rw [if_pos hver]
        right; rfl
      · left
        rw [if_neg (fun h => hdd (hinj d' (h.trans hver.symm)))]
  · -- flip of the '.' separator itself
    subst heq
    have hget : (b64uEncode data ++ 46 :: b64uEncode sig).getD
        (b64uEncode data).length 0 = 46 := by
      rw [List.getD_eq_getElem?_getD, List.getElem?_append_right (Nat.le_refl _)]
      simp
    have hcne : Nat.xor 46 (2 ^ bi) ≠ 46 := by
      intro h
      have h' : (46 : Nat) ^^^ 2 ^ bi = 46 ^^^ 0 := by
        rw [Nat.xor_zero]
        exact h
      have h2 : (2 : Nat) ^ bi = 0 := Nat.xor_right_inj.mp h'
      have hp : 0 < 2 ^ bi := pow_pos (by omega) bi
      omega
    have hset : flipBit (b64uEncode data ++ 46 :: b64uEncode sig)
        (b64uEncode data).length bi =
        b64uEncode data ++ Nat.xor 46 (2 ^ bi) :: b64uEncode sig := by
      unfold flipBit
      rw [hget, List.set_append_right _ _ (Nat.le_refl _), Nat.sub_self]
      rfl
    have hda : (46 : Nat) ∉
        b64uEncode data ++ Nat.xor 46 (2 ^ bi) :: b64uEncode sig := by
      intro hm
      rcases List.mem_append.1 hm with h | h
      · exact hEd h
      · rcases List.mem_cons.1 h with h | h
        · exact hcne h.symm
        · exact hSd h
    rw [hset]
    unfold parseSessionValue
    rw [if_neg (by intro h; rcases List.append_eq_nil.1 h with ⟨-, h2⟩; cases h2),
      jsSplit_not_mem 46 _ hda]
    left; rfl
  · -- flip inside the signature segment (or past the end)
    obtain ⟨k, hk⟩ : ∃ k, ci - (b64uEncode data).length = k + 1 :=
      ⟨ci - (b64uEncode data).length - 1, by omega⟩
    have hset : flipBit (b64uEncode data ++ 46 :: b64uEncode sig) ci bi =
        b64uEncode data ++ 46 :: (b64uEncode sig).set k
          (Nat.xor ((b64uEncode data ++ 46 :: b64uEncode sig).getD ci 0)
            (2 ^ bi)) := by
      unfold flipBit
      rw [List.set_append_right _ _ (by omega), hk]
      rfl
    rw [hset]
    rcases hs : jsSplit 46 ((b64uEncode sig).set k
        (Nat.xor ((b64uEncode data ++ 46 :: b64uEncode sig).getD ci 0)
          (2 ^ bi))) with _ | ⟨h1, t1⟩
    · exact absurd hs (jsSplit_ne_nil 46 _)
    · unfold parseSessionValue
      rw [if_neg (by intro h; rcases List.append_eq_nil.1 h with ⟨-, h2⟩; cases h2),
        jsSplit_append 46 _ _ hEd, hs]
      simp only []
      by_cases hh : h1 = []
      · left
        rw [if_pos (Or.inr hh)]
      · rw [if_neg (by tauto), b64uDecode_b64uEncode data hd]
        rcases hdec : b64uDecode h1 with _ | s'
        · left; rfl
        · simp only []
          by_cases hv : hmacF data = s'
          · right
            rw [if_pos hv]
          · left
            rw [if_neg hv]

/-- Decimal rendering of 0. -/
theorem natDigits_zero : natDigits 0 = [48] := by
  simp [natDigits, natDigitsAux]

/-- The concrete serialized payload for the identity with sub "ab" at time 0:
the bytes of the JSON text with sub "ab" and issuedAt 0. -/
theorem payloadData_identEx :
    payloadData identEx 0 =
      [123, 34, 115, 117, 98, 34, 58, 34, 97, 98, 34, 44, 34, 105, 115, 115,
        117, 101, 100, 65, 116, 34, 58, 48, 125] := by
  simp [payloadData, jsonStringifyPayload, identEx, subKey, issuedAtKey,
    natDigits_zero]

/-- The concrete session token for that identity and MAC. -/
theorem createSessionValue_identEx :
    createSessionValue (hmInjEx (payloadData identEx 0)) identEx 0 =
      [101, 121, 74, 122, 100, 87, 73, 105, 79, 105, 74, 104, 89, 105, 73,
        115, 73, 109, 108, 122, 99, 51, 86, 108, 90, 69, 70, 48, 73, 106, 111,
        119, 102, 81, 46, 65, 81, 69, 66, 65, 81, 69, 66, 65, 81, 69, 66, 65,
        81, 69, 66, 65, 81, 69, 66, 65, 81, 69, 66, 65, 81, 69, 66, 65, 81,
        69, 66, 65, 81, 69, 66, 65, 81, 69, 66, 65, 81, 69] := by
  have h : createSessionValue (hmInjEx (payloadData identEx 0)) identEx 0 =
      b64uEncode (payloadData identEx 0) ++ [46] ++
        b64uEncode (hmInjEx (payloadData identEx 0) (payloadData identEx 0)) :=
    rfl
  rw [h, payloadData_identEx]
  decide

/-- C2, counterexample: for the token created for the identity with sub "ab"
at time 0 (signed with a MAC that is injective at this payload and 32 bytes
long), flipping bit 1 of character 33 — the last character of the payload
segment — yields a token distinct from the original that `parseSessionValue`
still accepts, returning the original payload rather than null: atob's
forgiving base64 decode discards the leftover bits of a final two-character
group, so the mutated character decodes to the same payload byte and the MAC
check passes. -/
theorem C2_counterexample :
    flipBit (createSessionValue (hmInjEx (payloadData identEx 0)) identEx 0)
        33 1 ≠
      createSessionValue (hmInjEx (payloadData identEx 0)) identEx 0 ∧
    parseSessionValue (hmInjEx (payloadData identEx 0))
        (flipBit (createSessionValue (hmInjEx (payloadData identEx 0)) identEx 0)
          33 1) =
      some ⟨[97, 98], none, none, 0⟩ := by
  rw [createSessionValue_identEx, payloadData_identEx]
  constructor
  · decide
  · decide

/-- C2 (amended): for every well-formed identity and any MAC whose tag for
the serialized payload is nonempty, byte-valued and collision-free at that
payload, `parseSessionValue (createSessionValue identity)` returns the
payload with the identity's sub, email and name (round-trip); and for every
token obtained by flipping a single bit of the created token — provided a
flip inside the payload segment does not turn the character into '.' —
`parseSessionValue` returns either null or the original payload, never a
different payload and never an exception. -/
theorem C2_session_roundtrip_and_flip (hmacF : List Nat → List Nat)
    (identity : SessionIdentity) (now : Nat)
    (hwf : wellFormedIdentity identity)
    (hne : hmacF (payloadData identity now) ≠ [])
    (hmb : ∀ b ∈ hmacF (payloadData identity now), b < 256)
    (hinj : ∀ d, hmacF d = hmacF (payloadData identity now) →
      d = payloadData identity now) :
    parseSessionValue hmacF (createSessionValue hmacF identity now) =
      some ⟨identity.sub, identity.email, identity.name, now⟩ ∧
    ∀ ci bi,
      (ci < (b64uEncode (payloadData identity now)).length →
        Nat.xor ((createSessionValue hmacF identity now).getD ci 0) (2 ^ bi) ≠
          46) →
      parseSessionValue hmacF
          (flipBit (createSessionValue hmacF identity now) ci bi) = none ∨
        parseSessionValue hmacF
          (flipBit (createSessionValue hmacF identity now) ci bi) =
          some ⟨identity.sub, identity.email, identity.name, now⟩ := by
  have hd : ∀ b ∈ payloadData identity now, b < 256 :=
    payloadData_lt256 identity now hwf
  have hdne : payloadData identity now ≠ [] := payloadData_ne_nil identity now
  have hcr : createSessionValue hmacF identity now =
      b64uEncode (payloadData identity now) ++ 46 ::
        b64uEncode (hmacF (payloadData identity now)) := by
    simp [createSessionValue, payloadData, List.append_assoc]
  have hjson : jsonParsePayload (payloadData identity now) =
      some ⟨identity.sub, identity.email, identity.name, now⟩ :=
    jsonParse_jsonStringify ⟨identity.sub, identity.email, identity.name, now⟩
      hwf.1 hwf.2.1 hwf.2.2
  constructor
  · rw [hcr, parse_token_shape hmacF (payloadData identity now)
      (hmacF (payloadData identity now)) hd hdne hmb hne rfl, hjson]
  · intro ci bi hno
    rw [hcr] at hno ⊢
    rw [← hjson]
    exact parse_flip_token hmacF (payloadData identity now)
      (hmacF (payloadData identity now)) hd hdne hmb hne rfl hinj ci bi hno

/-- Witness for C2: at the concrete identity (sub "ab"), time 0 and the
concrete MAC, the round-trip returns the payload and the bit flip (5, 0) is
rejected or payload-preserving. -/
theorem C2_session_roundtrip_and_flip_witness :
    parseSessionValue (hmInjEx (payloadData identEx 0))
        (createSessionValue (hmInjEx (payloadData identEx 0)) identEx 0) =
      some ⟨[97, 98], none, none, 0⟩ ∧
    (parseSessionValue (hmInjEx (payloadData identEx 0))
          (flipBit
            (createSessionValue (hmInjEx (payloadData identEx 0)) identEx 0)
            5 0) =
        none ∨
      parseSessionValue (hmInjEx (payloadData identEx 0))
          (flipBit
            (createSessionValue (hmInjEx (payloadData identEx 0)) identEx 0)
            5 0) =
        some ⟨[97, 98], none, none, 0⟩) := by
  have h := C2_session_roundtrip_and_flip (hmInjEx (payloadData identEx 0))
    identEx 0
    ⟨by decide, fun e he => by simp [identEx] at he,
      fun nm hn => by simp [identEx] at hn⟩
    (by rw [payloadData_identEx]; decide)
    (by rw [payloadData_identEx]; decide)
    (hmInjEx_inj (payloadData identEx 0))
  exact ⟨h.1, h.2 5 0
    (by rw [createSessionValue_identEx, payloadData_identEx]; decide)⟩

end YtGen
